import Mathlib

/-!
Verification development for the Pegasus market-research pipeline
(`src/agent.py` and `src/pegasus.py`, two near-identical variants of the
class `RecursiveSectionalAgent`).

The Python code is shallowly embedded as pure Lean functions.  External
collaborators (the Ollama chat client, DDGS web search, trafilatura
fetch/extract, `ast.literal_eval`, the image regex, the chart JSON parse)
are modelled as oracles supplied to the run: each oracle answers a call
either with a value or with the message of the exception it raised.
All mutable object state (`self.model`, `self.vector_summaries`, the
leaked loop variables `url` / `sub_prompt`) is threaded through an
explicit state record, and every Qt signal emission is recorded, in
emission order, in an event trace.  Ghost trace fields (`calls`,
`prompts`, `fetches`, `mined`) record which model each underlying chat
call used, the prompt it was given, which URLs `trafilatura.fetch_url`
was invoked on for text extraction, and the per-query mining outcome;
they alter no behaviour.

Two deliberate modelling choices: the search oracle may return a result
list of any length (the `max_results` cap is enforced by the DDGS
provider, not by this code, and no claim depends on it), and progress
percentages are computed with natural-number division where Python
truncates a float quotient — no claim constrains the emitted progress
values.
-/

/-- `config.PRIMARY_MODEL` in `src/config.py` (also the hard-coded
`self.model` of `src/pegasus.py` line 73). -/
def PRIMARY_MODEL : String := "gpt-oss:120b"

/-- `config.FALLBACK_MODEL` in `src/config.py`. -/
def FALLBACK_MODEL : String := "llama3.1"

/-- `config.NUM_RESEARCH_VECTORS` in `src/config.py`. -/
def NUM_RESEARCH_VECTORS : Nat := 7

/-- `config.MAX_SOURCES_PER_VECTOR` in `src/config.py`. -/
def MAX_SOURCES_PER_VECTOR : Nat := 3

/-- `config.MAX_CHARS_PER_SOURCE` in `src/config.py`. -/
def MAX_CHARS_PER_SOURCE : Nat := 2000

/-- `config.MAX_MASTER_CONTEXT_CHARS` in `src/config.py`. -/
def MAX_MASTER_CONTEXT_CHARS : Nat := 10000

/-- Python `s[:n]` on a string: the first `n` characters.  Lean strings
are lists of unicode scalars, matching Python's per-character slicing. -/
def pySlice (s : String) (n : Nat) : String :=
  String.mk (s.toList.take n)

/-- One emitted Qt signal.  `log` is `log_sig`, `query` is `query_sig`,
`url` is `url_sig`, `vectorIntel` is `vector_intel_sig`, `masterSection`
is `master_section_sig`, `progress` is `progress_sig`, `finished` is
`finished_sig`; `chart`, `image` and `analytical` are the three extra
signals of `src/pegasus.py`. -/
inductive Event where
  | log (tag msg : String)
  | query (q : String)
  | url (q u : String)
  | vectorIntel (q text : String)
  | masterSection (title content : String)
  | progress (p : Nat)
  | finished
  | chart (data : String)
  | image (q u : String)
  | analytical (q text : String)
deriving DecidableEq

/-- Outcome of one `trafilatura.fetch_url` + `trafilatura.extract` pair
for a URL: the fetch raised, the fetch returned a falsy value
(`src/agent.py` then raises `ValueError("Empty response")`), the extract
raised, the extract returned nothing, or the extract produced text. -/
inductive FetchOutcome where
  | fetchErr (e : String)
  | empty
  | extractErr (e : String)
  | extractNone
  | extracted (text : String)
deriving DecidableEq

/-- Outcome of the chart-JSON postprocessing of `src/pegasus.py` lines
265-267: the `\x7b.*\x7d` regex found no match, `json.loads` raised, or a
chart payload was obtained. -/
inductive ChartOutcome where
  | noMatch
  | parseErr (e : String)
  | ok (data : String)
deriving DecidableEq

/-- The external collaborators of one run, determinized.
`chat model i prompt` is the result of the `i`-th underlying
`self.client.chat` call of the run (`Except.error e` = the call raised
`e`); `search i` is the DDGS result list for the `i`-th mined query
(each element is the `href` of one search result, `none` when the result
has no usable href — `result.get("href")` falsy in `src/agent.py`,
`r['href']` missing in `src/pegasus.py`); `litEval` is
`ast.literal_eval` on the bracketed span, `none` when it raises (a
successful parse is taken to yield a list of strings, the shape both
variants assume downstream); `images u` is the `<img src>` regex harvest
of the second fetch of `u` in `src/pegasus.py` (`Except.error` = that
fetch raised); `chartJson` postprocesses the chart reply. -/
structure Oracle where
  chat : String → Nat → String → Except String String
  search : Nat → Except String (List (Option String))
  fetchExtract : String → FetchOutcome
  litEval : String → Option (List String)
  images : String → Except String (List String)
  chartJson : String → ChartOutcome

/-- The threaded run state.  `model`, `vector_summaries`, `url` and
`sub_prompt` mirror the same-named Python locals/attributes (`url` and
`sub_prompt` are loop-body variables that Python leaks across
iterations, hence the outer `Option`: `none` = not yet bound).  For
`url` the inner value is the bound href: `some none` = the last
executed `url = result.get("href")` bound the falsy value `None` (the
result had no usable href), `some (some u)` = it bound the truthy URL
`u`.  `events` is the ordered signal trace; `chatIdx`, `calls`,
`prompts`, `fetches`, `mined` are ghost instrumentation — an entry
`none` in `fetches` records a `trafilatura.fetch_url` invocation on the
falsy `None` binding. -/
structure St where
  model : String
  vector_summaries : List String
  url : Option (Option String)
  sub_prompt : Option String
  events : List Event
  chatIdx : Nat
  calls : List String
  prompts : List String
  fetches : List (Option String)
  mined : List (String × Option String)
deriving DecidableEq

/-- Initial state of a run: `self.model = config.PRIMARY_MODEL`
(`src/agent.py` line 47; equal to the literal at `src/pegasus.py` line
73), `self.vector_summaries = []`, loop variables unbound, empty traces. -/
def initSt : St :=
  { model := PRIMARY_MODEL
    vector_summaries := []
    url := none
    sub_prompt := none
    events := []
    chatIdx := 0
    calls := []
    prompts := []
    fetches := []
    mined := [] }

/-- Record one emitted signal. -/
def emit (st : St) (e : Event) : St :=
  { st with events := st.events ++ [e] }

/-- One underlying `self.client.chat(self.model, messages=...)` call:
consults the oracle at the current model and call counter and records
the call in the ghost traces. -/
def doChat (o : Oracle) (prompt : String) (st : St) :
    Except String String × St :=
  (o.chat st.model st.chatIdx prompt,
   { st with
      chatIdx := st.chatIdx + 1
      calls := st.calls ++ [st.model]
      prompts := st.prompts ++ [prompt] })

/-- Terminal status of a run: `done` = the `try` body of `run` ran to
completion; `failed` = an exception reached the orchestrator-level
`except` clause. -/
inductive Status where
  | done
  | failed
deriving DecidableEq

/-- A finished run: final state plus terminal status. -/
structure RunOut where
  st : St
  status : Status

/-- `true` exactly on the terminal `finished` event. -/
def isFinished : Event → Bool
  | Event.finished => true
  | _ => false

/-- Number of `finished_sig` emissions in a trace. -/
def countFinished (l : List Event) : Nat :=
  l.countP isFinished

/-- The `(title, content)` payloads of the `master_section_sig`
("sectionReady") emissions of a trace, in order. -/
def masterPairs (l : List Event) : List (String × String) :=
  l.filterMap fun e =>
    match e with
    | Event.masterSection t c => some (t, c)
    | _ => none

/-- The greedy DOTALL match of the pattern `\[.*\]` used by both
variants to locate a Python-list literal in the LLM reply: the span from
the first `[` to the last `]`, provided the latter comes after the
former; `none` when the pattern does not match. -/
def bracketSpan (s : String) : Option String :=
  let l := s.toList
  match l.findIdx? (fun c => c = '['), (l.reverse.findIdx? (fun c => c = ']')) with
  | some i, some k =>
      let j := l.length - 1 - k
      if i < j then some (String.mk ((l.drop i).take (j + 1 - i))) else none
  | _, _ => none

/-- The deterministic fallback query list of `src/agent.py` lines
103-106. -/
def agentDefaults (target : String) : List String :=
  [target ++ " market analysis", target ++ " competitors"]

/-- The deterministic fallback query list of `src/pegasus.py` lines
116-122. -/
def pegDefaults (target : String) : List String :=
  [target ++ " market analysis",
   target ++ " competitors",
   target ++ " industry trends",
   target ++ " financial performance",
   target ++ " strategic position"]

/-- Query extraction of `src/agent.py` lines 99-106: search for a
bracketed span; when absent the queries are `[self.target]`; when
present, `ast.literal_eval` the span, falling back to the two-element
default list when it raises. -/
def agentParseQueries (litEval : String → Option (List String))
    (content target : String) : List String :=
  match bracketSpan content with
  | none => [target]
  | some span =>
      match litEval span with
      | some l => l
      | none => agentDefaults target

/-- Query extraction of `src/pegasus.py` lines 111-122: same structure,
but the exception branch logs a warning and uses the five-element
default list.  The boolean reports whether the warning branch ran. -/
def pegParseQueries (litEval : String → Option (List String))
    (content target : String) : List String × Bool :=
  match bracketSpan content with
  | none => ([target], false)
  | some span =>
      match litEval span with
      | some l => (l, false)
      | none => (pegDefaults target, true)

/-- Retry loop body of `safe_chat` in `src/agent.py` lines 54-66:
`for attempt in range(retries + 1)` — try the call, on failure emit a
warning log carrying the 1-based attempt index and the error, remember
`last_error`, continue.  `remaining` is the number of attempts still to
make, `attempt` the 0-based index of the next one, `total` is
`retries + 1` (for the log text), `lastErr` the last error seen. -/
def safeChatLoop (o : Oracle) (prompt : String)
    (remaining attempt total : Nat) (lastErr : String) (st : St) :
    Except String String × St :=
  match remaining with
  | 0 => (Except.error lastErr, st)
  | r + 1 =>
      match doChat o prompt st with
      | (Except.ok s, st') => (Except.ok s, st')
      | (Except.error e, st') =>
          let st'' := emit st' (Event.log "WARN"
            ("LLM call failed (attempt " ++ toString (attempt + 1) ++ "/"
              ++ toString total ++ "): " ++ e))
          safeChatLoop o prompt r (attempt + 1) total e st''

/-- `RecursiveSectionalAgent.safe_chat` of `src/agent.py` lines 52-78:
up to `retries + 1` attempts against the current `self.model`; after
exhaustion, when the current model differs from
`config.FALLBACK_MODEL`, log the switch, set `self.model` to the
fallback and attempt exactly once more — that final call's exception,
if any, propagates; when the current model already is the fallback,
re-raise `last_error`. -/
def safe_chat (o : Oracle) (prompt : String) (retries : Nat) (st : St) :
    Except String String × St :=
  match safeChatLoop o prompt (retries + 1) 0 (retries + 1) "" st with
  | (Except.ok s, st') => (Except.ok s, st')
  | (Except.error e, st') =>
      if st'.model = FALLBACK_MODEL then
        (Except.error e, st')
      else
        let st'' := emit st' (Event.log "WARN"
          ("Switching to fallback model: " ++ FALLBACK_MODEL))
        doChat o prompt { st'' with model := FALLBACK_MODEL }

/-- Retry loop of `chat_with_retry` in `src/pegasus.py` lines 79-97:
`for attempt in range(max_retries)` — log the request, try the call; on
failure log a warning, and either log the backoff and retry (when
`attempt < max_retries - 1`) or raise
`"Failed after {max_retries} attempts: {e}"`.  `remaining = k - attempt`
is the number of attempts left; when the loop falls through without ever
running (`max_retries = 0`) the Python function returns `None`, modelled
as `Except.ok none`. -/
def chatRetryLoop (o : Oracle) (prompt : String)
    (k remaining attempt : Nat) (st : St) :
    Except String (Option String) × St :=
  match remaining with
  | 0 => (Except.ok none, st)
  | r + 1 =>
      let st₁ := emit st (Event.log "AI"
        ("Sending request (attempt " ++ toString (attempt + 1) ++ "/"
          ++ toString k ++ ")..."))
      match doChat o prompt st₁ with
      | (Except.ok s, st₂) => (Except.ok (some s), st₂)
      | (Except.error e, st₂) =>
          let st₃ := emit st₂ (Event.log "WARN"
            ("Attempt " ++ toString (attempt + 1) ++ " failed: " ++ e))
          match r with
          | 0 =>
              (Except.error
                ("Failed after " ++ toString k ++ " attempts: " ++ e), st₃)
          | _ + 1 =>
              let st₄ := emit st₃ (Event.log "SYSTEM"
                ("Retrying in " ++ toString ((attempt + 1) * 5)
                  ++ " seconds..."))
              chatRetryLoop o prompt k r (attempt + 1) st₄

/-- `RecursiveSectionalAgent.chat_with_retry` of `src/pegasus.py` lines
79-97 (the `time.sleep` backoff has no observable effect beyond its
`SYSTEM` log line and is not otherwise modelled). -/
def chat_with_retry (o : Oracle) (prompt : String) (k : Nat) (st : St) :
    Except String (Option String) × St :=
  chatRetryLoop o prompt k k 0 st

/-- Phase-1 prompt of `src/agent.py` lines 89-93. -/
def agentVectorPrompt (target : String) : String :=
  "Generate a Python list of exactly " ++ toString NUM_RESEARCH_VECTORS
    ++ " distinct market research queries for deep due diligence on: "
    ++ target ++ ". Return ONLY the Python list."

/-- Phase-1 prompt of `src/pegasus.py` lines 104-107. -/
def pegVectorPrompt (target : String) : String :=
  "Generate a Python list of exactly 7 distinct market research queries "
    ++ "for deep due diligence on: " ++ target
    ++ ". Return ONLY the Python list."

/-- Per-vector summarization prompt of `src/agent.py` lines 161-165. -/
def agentSummarizePrompt (q : String) (rawTexts : List String) : String :=
  "Summarize the core intelligence for the query '" ++ q
    ++ "' based on the following sources:\n"
    ++ String.intercalate "\n" rawTexts

/-- Per-vector summarization prompt of `src/pegasus.py` line 157. -/
def pegSubPrompt (q : String) (rawTexts : List String) : String :=
  "Summarize verified intelligence for: " ++ q
    ++ ". Focus only on consensus-backed facts.\n"
    ++ String.intercalate "\n" rawTexts

/-- Mermaid mindmap prompt of `src/pegasus.py` lines 162-168. -/
def pegAnalyticalPrompt (intelTxt : String) : String :=
  "You must output ONLY a valid Mermaid mindmap.\n"
    ++ "Always start with 'mindmap'\n"
    ++ "Use 2 spaces per indent level\n"
    ++ "Wrap node text in ( )\n\n" ++ intelTxt

/-- Section prompt of `src/agent.py` lines 214-219: the aggregated
context was already truncated at line 209, before the section loop. -/
def agentSectionPrompt (target title instruction context : String) : String :=
  "You are the Pegasus Lead Partner. Using ONLY the following research data, "
    ++ "write the '" ++ title ++ "' section of a report for " ++ target
    ++ ". " ++ instruction
    ++ " Be professional, use Markdown headers, and do not truncate."
    ++ "\n\nRESEARCH DATA:\n" ++ context

/-- Section prompt of `src/pegasus.py` lines 199-204: here the
truncation `[:10000]` is applied inside the prompt expression. -/
def pegSectionPrompt (target title instruction context : String) : String :=
  "You are the Pegasus Lead Partner. Using ONLY the following research data, "
    ++ "write the '" ++ title ++ "' section of a report for " ++ target
    ++ ". " ++ instruction
    ++ " Be professional, use Markdown headers, and do not truncate."
    ++ " Provide the full text for this section."
    ++ "\n\nRESEARCH DATA:\n" ++ pySlice context 10000

/-- Chart-data prompt of `src/pegasus.py` lines 219-261 (JSON braces
written as escapes). -/
def pegChartPrompt (context : String) : String :=
  "From the following research data, generate visualization data.\n\n"
    ++ "Return STRICT JSON ONLY in this exact format:\n\n"
    ++ "\x7b\n  \"market_projection\": \x7b\n"
    ++ "    \"years\": [2024, 2025, 2026, 2027, 2028, 2029, 2030],\n"
    ++ "    \"values\": [500, 505, 512.6, 522.8, 536.9, 553.0, 575.1]\n"
    ++ "  \x7d,\n  \"regional_split\": \x7b\n    \"USA\": 38,\n"
    ++ "    \"China\": 32,\n    \"EU\": 18,\n    \"Rest of World\": 12\n"
    ++ "  \x7d,\n  \"swot\": \x7b\n    \"Strengths\": 8,\n"
    ++ "    \"Weaknesses\": 4,\n    \"Opportunities\": 9,\n"
    ++ "    \"Threats\": 6\n  \x7d,\n  \"pestle\": \x7b\n"
    ++ "    \"Political\": 6,\n    \"Economic\": 8,\n    \"Social\": 5,\n"
    ++ "    \"Technological\": 9,\n    \"Legal\": 6,\n"
    ++ "    \"Environmental\": 4\n  \x7d,\n  \"moat\": \x7b\n"
    ++ "    \"Cost Advantage\": 7,\n    \"Switching Costs\": 6,\n"
    ++ "    \"Network Effects\": 5,\n    \"IP / Patents\": 8,\n"
    ++ "    \"Brand Power\": 6\n  \x7d\n\x7d\n\n"
    ++ "Rules:\n- All scores must be integers from 1 to 10\n"
    ++ "- Percentages must sum to 100\n"
    ++ "- Use only the provided research data\n"
    ++ "- Do NOT include commentary or markdown\n\n"
    ++ "RESEARCH DATA:\n" ++ pySlice context 12000

/-- The fixed section definitions of `src/agent.py` lines 185-206. -/
def agentReportSections : List (String × String) :=
  [("Executive Summary",
    "Synthesize a high-level overview and market standing."),
   ("SWOT Analysis",
    "Provide a detailed Strengths, Weaknesses, Opportunities, and Threats breakdown."),
   ("PESTLE Analysis",
    "Analyze Political, Economic, Social, Technological, Legal, and Environmental factors."),
   ("Competitive Landscape",
    "Analyze market share and direct competitor positioning."),
   ("Strategic Outlook",
    "Provide multi-year projections and final recommendations.")]

/-- The fixed section definitions of `src/pegasus.py` lines 184-192. -/
def pegReportSections : List (String × String) :=
  [("Executive Summary",
    "Synthesize a high-level overview and market standing."),
   ("SWOT Analysis",
    "Provide a detailed Strengths, Weaknesses, Opportunities, and Threats breakdown."),
   ("PESTLE Analysis",
    "Analyze Political, Economic, Social, Technological, Legal, and Environmental factors."),
   ("Porter's Five Forces", "Industry competitiveness"),
   ("Moat & Defensibility", "Long-term competitive advantage"),
   ("Competitive Landscape",
    "Analyze market share and direct competitor positioning."),
   ("Strategic Outlook",
    "Provide 2026-2030 projections and final recommendations.")]

/-- Result of a step that may propagate a Python exception to the
orchestrator: `Except.error (e, st)` carries the exception text together
with the state (already-emitted signals survive the exception). -/
abbrev StepRes := Except (String × St) St

/-- The state carried by a step result, whether it returned or raised. -/
def outSt : StepRes → St
  | Except.ok st => st
  | Except.error (_, st) => st

/-- The last binding the loop at `src/agent.py` lines 128-133 gives
`url`: `none` for an empty result list (the body never runs), otherwise
`some` of the final result's href value — which is the falsy `None`
(inner `none`) when that result has no usable href, since
`url = result.get("href")` executes for **every** result before the
`if not url: continue` check. -/
def lastBind : List (Option String) → Option (Option String)
  | [] => none
  | r :: rest =>
      match lastBind rest with
      | some v => some v
      | none => some r

/-- `src/agent.py` lines 128-133: for each search result, assign the
loop variable `url := result.get("href")` — this binding happens for
**every** result, falsy or not; then `if not url: continue` skips the
`url_sig` emission for falsy bindings.  The body performs no fetching —
the fetch block sits after this loop. -/
def agentHrefLoop (q : String) (results : List (Option String)) (st : St) : St :=
  match results with
  | [] => st
  | none :: rest => agentHrefLoop q rest { st with url := some none }
  | some u :: rest =>
      agentHrefLoop q rest
        (emit { st with url := some (some u) } (Event.url q u))

/-- Result of the fetch block for one query in `src/agent.py`:
`abort` = an exception escaped to the orchestrator (the `NameError` on
an unbound `url`, re-raised from inside the `except` handler because the
warning text itself interpolates `url`); `skip` = the per-URL handler
caught the failure, logged the warning and executed `continue` (skipping
the query's summarization and progress emission); `proceed` = fall
through to the summarization block with the given `raw_texts`. -/
inductive MineStep where
  | abort (e : String) (st : St)
  | skip (st : St)
  | proceed (rawTexts : List String) (st : St)

/-- `src/agent.py` lines 135-157: the fetch-and-extract block.  It runs
once per query, after the result loop, reading whatever the loop
variable `url` currently holds.  When `url` was never bound in the run
the read raises `NameError`, and the handler's own log text reads `url`
again, so the `NameError` escapes uncaught (and unlogged).  When `url`
is bound to the falsy `None`, `trafilatura.fetch_url(None)` yields no
document (trafilatura returns nothing for an invalid URL input), the
`Empty response` `ValueError` fires, and the handler logs the warning —
interpolating `None` — and `continue`s: no `NameError`, merely a
skipped query. -/
def agentFetchBlock (o : Oracle) (st : St) : MineStep :=
  match st.url with
  | none => MineStep.abort "name 'url' is not defined" st
  | some none =>
      MineStep.skip (emit { st with fetches := st.fetches ++ [none] }
        (Event.log "WARN" "Skipped URL (fetch failed): None | Empty response"))
  | some (some u) =>
      let st₁ := { st with fetches := st.fetches ++ [some u] }
      match o.fetchExtract u with
      | FetchOutcome.fetchErr e =>
          MineStep.skip (emit st₁ (Event.log "WARN"
            ("Skipped URL (fetch failed): " ++ u ++ " | " ++ e)))
      | FetchOutcome.empty =>
          MineStep.skip (emit st₁ (Event.log "WARN"
            ("Skipped URL (fetch failed): " ++ u ++ " | Empty response")))
      | FetchOutcome.extractErr e =>
          MineStep.skip (emit st₁ (Event.log "WARN"
            ("Skipped URL (fetch failed): " ++ u ++ " | " ++ e)))
      | FetchOutcome.extractNone => MineStep.proceed [] st₁
      | FetchOutcome.extracted t =>
          MineStep.proceed [pySlice t MAX_CHARS_PER_SOURCE] st₁

/-- `src/agent.py` lines 159-178: when `raw_texts` is non-empty,
summarize it through `safe_chat` (whose exhausted-retries exception
propagates out of the loop), emit `vector_intel_sig` and append the
labelled summary; then emit the query's progress.  The ghost `mined`
entry records the query's outcome. -/
def agentSummarizeBlock (o : Oracle) (nq idx : Nat) (q : String)
    (rawTexts : List String) (st : St) : StepRes :=
  match rawTexts with
  | [] =>
      let st₁ := { st with mined := st.mined ++ [(q, none)] }
      Except.ok (emit st₁ (Event.progress ((idx + 1) * 50 / nq)))
  | _ :: _ =>
      match safe_chat o (agentSummarizePrompt q rawTexts) 2 st with
      | (Except.error e, st₁) => Except.error (e, st₁)
      | (Except.ok intel, st₁) =>
          let st₂ := emit st₁ (Event.vectorIntel q intel)
          let st₃ := { st₂ with
            vector_summaries := st₂.vector_summaries
              ++ ["RESEARCH DATA FOR " ++ q ++ ": " ++ intel]
            mined := st₂.mined ++ [(q, some intel)] }
          Except.ok (emit st₃ (Event.progress ((idx + 1) * 50 / nq)))

/-- The per-query tail of the mining loop of `src/agent.py` lines
135-178: the fetch block followed by the summarization block.  A `skip`
outcome records the ghost `mined` entry and moves on without progress
emission (`continue`). -/
def agentMineTail (o : Oracle) (nq idx : Nat) (q : String) (st₂ : St) :
    StepRes :=
  match agentFetchBlock o st₂ with
  | MineStep.abort e st₃ => Except.error (e, st₃)
  | MineStep.skip st₃ => Except.ok { st₃ with mined := st₃.mined ++ [(q, none)] }
  | MineStep.proceed raw st₃ => agentSummarizeBlock o nq idx q raw st₃

/-- One iteration of the mining loop of `src/agent.py` lines 111-178 for
the query at position `idx` of `nq` queries: emit `query_sig` and the
thought log, search (a search exception is downgraded to an empty result
list with a warning), run the href loop, then `agentMineTail`. -/
def agentMineQuery (o : Oracle) (nq idx : Nat) (q : String) (st : St) :
    StepRes :=
  let st₁ := emit (emit st (Event.query q))
    (Event.log "AI_THOUGHT" ("Mining Vector: " ++ q))
  let p :=
    match o.search idx with
    | Except.error e =>
        (([] : List (Option String)),
         emit st₁ (Event.log "WARN" ("Search failed: " ++ e)))
    | Except.ok rs => (rs, st₁)
  agentMineTail o nq idx q (agentHrefLoop q p.1 p.2)

/-- The mining loop of `src/agent.py` lines 111-178 over the whole query
list (`nq` is its total length, used for the progress denominator). -/
def agentMineLoop (o : Oracle) (nq idx : Nat) (queries : List String)
    (st : St) : StepRes :=
  match queries with
  | [] => Except.ok st
  | q :: rest =>
      match agentMineQuery o nq idx q st with
      | Except.error p => Except.error p
      | Except.ok st' => agentMineLoop o nq (idx + 1) rest st'

/-- The synthesis loop of `src/agent.py` lines 211-231: per section, log
the streaming line, call `self.client.chat` directly (no retry wrapper
and no per-section handler — an exception propagates to the
orchestrator), emit `master_section_sig` and the section progress. -/
def agentSynthLoop (o : Oracle) (target context : String) (n i : Nat)
    (secs : List (String × String)) (st : St) : StepRes :=
  match secs with
  | [] => Except.ok st
  | (title, instruction) :: rest =>
      let st₁ := emit st (Event.log "AI" ("Streaming Master Section: " ++ title))
      match doChat o (agentSectionPrompt target title instruction context) st₁ with
      | (Except.error e, st₂) => Except.error (e, st₂)
      | (Except.ok content, st₂) =>
          let st₃ := emit st₂ (Event.masterSection title content)
          let st₄ := emit st₃ (Event.progress (50 + (i + 1) * 50 / n))
          agentSynthLoop o target context n (i + 1) rest st₄

/-- Phase 1 of `src/agent.py` lines 84-97: the deployment log and the
query-generation `safe_chat` call, from the initial state. -/
def agentPhase1 (o : Oracle) (target : String) :
    Except String String × St :=
  safe_chat o (agentVectorPrompt target) 2
    (emit initSt (Event.log "SYSTEM" ("AGENT DEPLOYED: " ++ target)))

/-- The `try` body of `RecursiveSectionalAgent.run` in `src/agent.py`
lines 83-236: phase 1, query parsing, the mining loop, the synthesis
preamble and loop, then `finished_sig` followed by the success log. -/
def agentRunBody (o : Oracle) (target : String) : StepRes :=
  match agentPhase1 o target with
  | (Except.error e, st₁) => Except.error (e, st₁)
  | (Except.ok content, st₁) =>
      let queries := agentParseQueries o.litEval content target
      match agentMineLoop o queries.length 0 queries st₁ with
      | Except.error p => Except.error p
      | Except.ok st₂ =>
          let st₃ := emit st₂
            (Event.log "SYSTEM" "Executing Sectional Master Synthesis...")
          let context :=
            pySlice (String.intercalate "\n\n" st₃.vector_summaries)
              MAX_MASTER_CONTEXT_CHARS
          match agentSynthLoop o target context
              agentReportSections.length 0 agentReportSections st₃ with
          | Except.error p => Except.error p
          | Except.ok st₄ =>
              Except.ok (emit (emit st₄ Event.finished)
                (Event.log "SUCCESS"
                  "Terminal has vaulted all intelligence sections."))

/-- `RecursiveSectionalAgent.run` of `src/agent.py` lines 82-239: the
orchestrator catch logs `"Agent Error: ..."` — and, unlike
`src/pegasus.py`, emits no `finished_sig` on the failure path. -/
def agentRun (o : Oracle) (target : String) : RunOut :=
  match agentRunBody o target with
  | Except.ok st => { st := st, status := Status.done }
  | Except.error (e, st) =>
      { st := emit st (Event.log "ERROR" ("Agent Error: " ++ e))
        status := Status.failed }

/-- The queries a run of `src/agent.py` mines, replayed from phase 1:
empty when phase 1 itself raised. -/
def agentQueries (o : Oracle) (target : String) : List String :=
  match agentPhase1 o target with
  | (Except.ok content, _) => agentParseQueries o.litEval content target
  | (Except.error _, _) => []

/-- `src/pegasus.py` lines 132-151: the per-result loop.  `r['href']`
raises `KeyError('href')` on a result without an href; that exception
is caught by the enclosing search-level `try`, which logs the
"Search failed" warning and abandons the remaining results.  For an
href-bearing result: emit `url_sig`, fetch-and-extract with failures
caught silently (`except: pass`), truncate to 2000 characters, then a
second fetch harvests up to two image URLs (also caught silently).
Returns the accumulated `raw_texts`. -/
def pegUrlLoop (o : Oracle) (q : String) (results : List (Option String))
    (raw : List String) (st : St) : List String × St :=
  match results with
  | [] => (raw, st)
  | none :: _ =>
      (raw, emit st (Event.log "WARN"
        ("Search failed for '" ++ q ++ "': 'href'")))
  | some link :: rest =>
      let st₁ := emit st (Event.url q link)
      let st₂ := { st₁ with fetches := st₁.fetches ++ [some link] }
      let raw' :=
        match o.fetchExtract link with
        | FetchOutcome.extracted t => raw ++ [pySlice t 2000]
        | _ => raw
      let st₃ :=
        match o.images link with
        | Except.error _ => st₂
        | Except.ok imgs =>
            (imgs.take 2).foldl (fun s im => emit s (Event.image q im)) st₂
      pegUrlLoop o q rest raw' st₃

/-- The summarization block of `src/pegasus.py` lines 156-177.  The
`try` at line 158 is outside the `if raw_texts:` guard, so it reads the
leaked `sub_prompt` (a `NameError`, caught by the block's own `except`,
when no earlier query ever set it); both chat calls
(summarization then mindmap) must succeed before the summary is
appended, and the block's `else` clause — which runs exactly when no
exception occurred — emits the "No text extracted" warning.  This is the
`try` body, reading the (possibly stale, possibly unbound) `sub_prompt`
from the state. -/
def pegSummarizeTry (o : Oracle) (q : String) (st₀ : St) : St :=
  match st₀.sub_prompt with
  | none =>
      emit st₀ (Event.log "ERROR"
        ("Failed to summarize vector '" ++ q
          ++ "': name 'sub_prompt' is not defined"))
  | some sp =>
      match chat_with_retry o sp 3 st₀ with
      | (Except.error e, st₁) =>
          emit st₁ (Event.log "ERROR"
            ("Failed to summarize vector '" ++ q ++ "': " ++ e))
      | (Except.ok none, st₁) =>
          emit st₁ (Event.log "ERROR"
            ("Failed to summarize vector '" ++ q
              ++ "': 'NoneType' object is not subscriptable"))
      | (Except.ok (some intel), st₁) =>
          let st₂ := emit st₁ (Event.vectorIntel q intel)
          match chat_with_retry o (pegAnalyticalPrompt intel) 3 st₂ with
          | (Except.error e, st₃) =>
              emit st₃ (Event.log "ERROR"
                ("Failed to summarize vector '" ++ q ++ "': " ++ e))
          | (Except.ok none, st₃) =>
              emit st₃ (Event.log "ERROR"
                ("Failed to summarize vector '" ++ q
                  ++ "': 'NoneType' object is not subscriptable"))
          | (Except.ok (some analyticalIntel), st₃) =>
              let st₄ := emit st₃ (Event.analytical q analyticalIntel)
              let st₅ := { st₄ with
                vector_summaries := st₄.vector_summaries
                  ++ ["RESEARCH DATA FOR " ++ q ++ ": " ++ intel] }
              emit st₅ (Event.log "WARN"
                ("No text extracted for vector: " ++ q))

/-- The summarization block of `src/pegasus.py` lines 156-177: bind
`sub_prompt` when `raw_texts` is non-empty, then run the `try` body. -/
def pegSummarizeBlock (o : Oracle) (q : String) (rawTexts : List String)
    (st : St) : St :=
  pegSummarizeTry o q
    (match rawTexts with
     | [] => st
     | _ :: _ => { st with sub_prompt := some (pegSubPrompt q rawTexts) })

/-- One iteration of the mining loop of `src/pegasus.py` lines 125-179:
never lets an exception escape (search trouble is caught at search
scope, summarization trouble at the summarize `try`), and always ends by
emitting the query's progress. -/
def pegMineQuery (o : Oracle) (nq idx : Nat) (q : String) (st : St) : St :=
  let st₁ := emit (emit st (Event.query q))
    (Event.log "AI_THOUGHT" ("Mining Vector: " ++ q))
  let p :=
    match o.search idx with
    | Except.error e =>
        (([] : List String),
         emit st₁ (Event.log "WARN"
           ("Search failed for '" ++ q ++ "': " ++ e)))
    | Except.ok rs => pegUrlLoop o q rs [] st₁
  let st₂ := pegSummarizeBlock o q p.1 p.2
  emit st₂ (Event.progress ((idx + 1) * 50 / nq))

/-- The mining loop of `src/pegasus.py` lines 125-179 over the query
list. -/
def pegMineLoop (o : Oracle) (nq idx : Nat) (queries : List String)
    (st : St) : St :=
  match queries with
  | [] => st
  | q :: rest => pegMineLoop o nq (idx + 1) rest (pegMineQuery o nq idx q st)

/-- The synthesis loop of `src/pegasus.py` lines 196-214: per section,
the retry-wrapped call; on success emit the section, on failure log an
error and emit the section with the italicized failure placeholder —
either way exactly one `master_section_sig` per section, then the
progress step. -/
def pegSynthLoop (o : Oracle) (target context : String) (n i : Nat)
    (secs : List (String × String)) (st : St) : St :=
  match secs with
  | [] => st
  | (title, instruction) :: rest =>
      let st₁ := emit st (Event.log "AI" ("Streaming Master Section: " ++ title))
      let st₂ :=
        match chat_with_retry o
            (pegSectionPrompt target title instruction context) 3 st₁ with
        | (Except.ok (some content), s) => emit s (Event.masterSection title content)
        | (Except.ok none, s) =>
            emit (emit s (Event.log "ERROR"
              ("Failed to generate section '" ++ title
                ++ "': 'NoneType' object is not subscriptable")))
              (Event.masterSection title
                "*Section generation failed: 'NoneType' object is not subscriptable*")
        | (Except.error e, s) =>
            emit (emit s (Event.log "ERROR"
              ("Failed to generate section '" ++ title ++ "': " ++ e)))
              (Event.masterSection title
                ("*Section generation failed: " ++ e ++ "*"))
      let st₃ := emit st₂ (Event.progress (50 + (i + 1) * 40 / n))
      pegSynthLoop o target context n (i + 1) rest st₃

/-- Phase 3B of `src/pegasus.py` lines 216-272: the chart-data call,
fully wrapped in its own `try` (a failure merely logs a warning). -/
def pegChartPhase (o : Oracle) (context : String) (st : St) : St :=
  let st₁ := emit st (Event.log "AI" "Generating market visualization data...")
  match chat_with_retry o (pegChartPrompt context) 3 st₁ with
  | (Except.error e, st₂) =>
      emit st₂ (Event.log "WARN" ("Chart generation failed: " ++ e))
  | (Except.ok none, st₂) =>
      emit st₂ (Event.log "WARN"
        "Chart generation failed: 'NoneType' object is not subscriptable")
  | (Except.ok (some content), st₂) =>
      match o.chartJson content with
      | ChartOutcome.noMatch =>
          emit st₂ (Event.log "WARN" "No valid JSON found in chart response")
      | ChartOutcome.parseErr e =>
          emit st₂ (Event.log "WARN" ("Chart generation failed: " ++ e))
      | ChartOutcome.ok d => emit st₂ (Event.chart d)

/-- Phase 1 of `src/pegasus.py` lines 101-109, from the initial state. -/
def pegPhase1 (o : Oracle) (target : String) :
    Except String (Option String) × St :=
  chat_with_retry o (pegVectorPrompt target) 3
    (emit initSt (Event.log "SYSTEM" ("AGENT DEPLOYED: " ++ target)))

/-- The `try` body of `RecursiveSectionalAgent.run` in `src/pegasus.py`
lines 100-276.  Only phase 1 can raise (a `chat_with_retry` exhaustion,
or the `resp['message']` subscript of a `None` return): mining,
synthesis and the chart phase catch their own failures.  The body ends
with `progress(100)`, `finished_sig` and the success log. -/
def pegasusRunBody (o : Oracle) (target : String) : StepRes :=
  match pegPhase1 o target with
  | (Except.error e, st₁) => Except.error (e, st₁)
  | (Except.ok none, st₁) =>
      Except.error ("'NoneType' object is not subscriptable", st₁)
  | (Except.ok (some content), st₁) =>
      let pq := pegParseQueries o.litEval content target
      let st₂ :=
        if pq.2 then
          emit st₁ (Event.log "WARN" "Failed to parse queries, using defaults")
        else st₁
      let st₃ := pegMineLoop o pq.1.length 0 pq.1 st₂
      let st₄ := emit st₃
        (Event.log "SYSTEM" "Executing Sectional Master Synthesis...")
      let context := String.intercalate "\n\n" st₄.vector_summaries
      let st₅ := pegSynthLoop o target context
        pegReportSections.length 0 pegReportSections st₄
      let st₆ := pegChartPhase o context st₅
      Except.ok (emit (emit (emit st₆ (Event.progress 100)) Event.finished)
        (Event.log "SUCCESS" "Terminal has vaulted all intelligence sections."))

/-- `RecursiveSectionalAgent.run` of `src/pegasus.py` lines 99-280: the
orchestrator catch logs `"Agent Error: ..."` and then emits
`finished_sig`, so both terminal states emit it. -/
def pegasusRun (o : Oracle) (target : String) : RunOut :=
  match pegasusRunBody o target with
  | Except.ok st => { st := st, status := Status.done }
  | Except.error (e, st) =>
      { st := emit (emit st (Event.log "ERROR" ("Agent Error: " ++ e)))
          Event.finished
        status := Status.failed }

/-- The labelled VectorSummary entry format (`src/agent.py` line 174,
`src/pegasus.py` line 172). -/
def researchHeader (q intel : String) : String :=
  "RESEARCH DATA FOR " ++ q ++ ": " ++ intel

/-- The labelled summary a ghost `mined` entry contributes, if any. -/
def minedSummary (p : String × Option String) : Option String :=
  p.2.map (researchHeader p.1)

/-- "The web search yielded zero results": the DDGS call returned an
empty (or falsy, via the `or []` at `src/agent.py` line 122) list, or
raised.  Note that a *non-empty* list whose results all lack an href is
different: the loop body still runs and binds `url = None`. -/
def searchNoResults (r : Except String (List (Option String))) : Prop :=
  r = Except.ok [] ∨ ∃ e, r = Except.error e

/-- A `master_section_sig` content is accounted for: either some
underlying chat call produced it, or it is the italicized failure
placeholder of `src/pegasus.py` line 212 and the matching error-level
log of line 211 is in the trace. -/
def sectionContentOk (o : Oracle) (events : List Event)
    (p : String × String) : Prop :=
  (∃ m i pr, o.chat m i pr = Except.ok p.2) ∨
    ∃ e, p.2 = "*Section generation failed: " ++ e ++ "*" ∧
      Event.log "ERROR"
        ("Failed to generate section '" ++ p.1 ++ "': " ++ e) ∈ events

/-- An oracle whose chat calls follow the finite schedule `sched`
(calls beyond the schedule raise `"down"`), with fixed search, fetch,
literal-eval, image and chart behaviour; used to build the concrete
runs below. -/
def mkOracle (sched : List (Except String String))
    (search : Nat → Except String (List (Option String)))
    (fetchExtract : String → FetchOutcome)
    (litEval : String → Option (List String)) : Oracle :=
  { chat := fun _ i _ => (sched.drop i).headD (Except.error "down")
    search := search
    fetchExtract := fetchExtract
    litEval := litEval
    images := fun _ => Except.ok []
    chartJson := fun _ => ChartOutcome.noMatch }

/-- Concrete run for the C1 counterexample: `src/agent.py`, phase 1
returns `"x"` (one query, the target), mining succeeds, section 1 of
the synthesis succeeds and section 2's chat call raises. -/
def oC1 : Oracle :=
  mkOracle
    [Except.ok "x", Except.ok "intel", Except.ok "S1", Except.error "boom"]
    (fun _ => Except.ok [some "u"])
    (fun _ => FetchOutcome.extracted "text")
    (fun _ => none)

/-- An oracle whose chat calls always raise `"down"`. -/
def oAllFail : Oracle :=
  mkOracle [] (fun _ => Except.ok [some "u"])
    (fun _ => FetchOutcome.extracted "text") (fun _ => none)

/-- Concrete run for the C3 counterexample: two queries are generated,
the first query's sources extract fine, and every chat call after
phase 1 raises, so its summarization exhausts retries and fallback. -/
def oC3 : Oracle :=
  mkOracle [Except.ok "[x]"]
    (fun _ => Except.ok [some "u"])
    (fun _ => FetchOutcome.extracted "text")
    (fun _ => some ["q1", "q2"])

/-- Concrete run for the C4 counterexample: one query whose search
returns two href-bearing results, both of which would extract text;
every chat call succeeds. -/
def oC4 : Oracle :=
  { chat := fun _ i _ => if i = 0 then Except.ok "x" else Except.ok "intel"
    search := fun _ => Except.ok [some "u1", some "u2"]
    fetchExtract := fun u =>
      if u = "u1" then FetchOutcome.extracted "A" else FetchOutcome.extracted "B"
    litEval := fun _ => none
    images := fun _ => Except.ok []
    chartJson := fun _ => ChartOutcome.noMatch }

/-- Variant of `oC4` whose search returns an href-bearing result
followed by a result without an href, so the loop's final binding of
`url` is the falsy `None`. -/
def oC4b : Oracle :=
  { chat := fun _ i _ => if i = 0 then Except.ok "x" else Except.ok "intel"
    search := fun _ => Except.ok [some "u1", none]
    fetchExtract := fun _ => FetchOutcome.extracted "A"
    litEval := fun _ => none
    images := fun _ => Except.ok []
    chartJson := fun _ => ChartOutcome.noMatch }

/-- Oracle on which every chat call succeeds and every search returns a
single result without an href. -/
def oNoHref : Oracle :=
  { chat := fun _ _ _ => Except.ok "R"
    search := fun _ => Except.ok [none]
    fetchExtract := fun _ => FetchOutcome.extracted "text"
    litEval := fun _ => none
    images := fun _ => Except.ok []
    chartJson := fun _ => ChartOutcome.noMatch }

/-- Oracle for the C5/C10 witnesses: phase 1 succeeds with a
bracket-free reply, every web search raises. -/
def oSearchDown : Oracle :=
  mkOracle [Except.ok "x"] (fun _ => Except.error "net down")
    (fun _ => FetchOutcome.extracted "text") (fun _ => none)

/-- Oracle for a C10 witness variant: phase 1 succeeds, the first
query's search returns an empty result list. -/
def oSearchEmpty : Oracle :=
  mkOracle [Except.ok "x"] (fun _ => Except.ok [])
    (fun _ => FetchOutcome.extracted "text") (fun _ => none)

/-- Oracle on which every chat call succeeds with `"R"`: a fully
successful run of either variant. -/
def oAllOk : Oracle :=
  { chat := fun _ _ _ => Except.ok "R"
    search := fun _ => Except.ok [some "u"]
    fetchExtract := fun _ => FetchOutcome.extracted "text"
    litEval := fun _ => none
    images := fun _ => Except.ok []
    chartJson := fun _ => ChartOutcome.ok "cd" }

/-- Oracle for the C1 witness: `src/pegasus.py` phase 1 succeeds, every
later chat call raises, so all seven sections take the placeholder
path while the run still completes. -/
def oPegPartial : Oracle :=
  mkOracle [Except.ok "x"] (fun _ => Except.error "net down")
    (fun _ => FetchOutcome.extracted "text") (fun _ => none)

/-- The state carried by a fetch-block outcome. -/
def MineStep.state : MineStep → St
  | MineStep.abort _ st => st
  | MineStep.skip st => st
  | MineStep.proceed _ st => st

/-- The labelled summaries contributed by a ghost mining trace. -/
def minedSummaries (l : List (String × Option String)) : List String :=
  l.filterMap minedSummary

/-- Model-identity invariant of a `src/agent.py` run: the active model
is the primary or the fallback, the per-call model trace is a block of
primary calls followed by a block of fallback calls, and no fallback
call has happened while the active model is still the primary. -/
def ModelInv (st : St) : Prop :=
  (st.model = PRIMARY_MODEL ∨ st.model = FALLBACK_MODEL) ∧
    ∃ a b, st.calls = List.replicate a PRIMARY_MODEL
        ++ List.replicate b FALLBACK_MODEL ∧
      (st.model = PRIMARY_MODEL → b = 0)

/-- Mining-trace invariant of a `src/agent.py` run: the accumulated
`vector_summaries` are exactly the labelled summaries of the ghost
mining trace, and every recorded summary text was produced by a
successful underlying chat call. -/
def MinedInv (o : Oracle) (st : St) : Prop :=
  st.vector_summaries = minedSummaries st.mined ∧
    ∀ p ∈ st.mined, ∀ intel, p.2 = some intel →
      ∃ m i pr, o.chat m i pr = Except.ok intel

/-- The prefix of per-result `href` links that `src/pegasus.py`'s URL
loop actually visits: every link up to (but not including) the first
result without an href, whose `KeyError` aborts the loop. -/
def hrefPrefix : List (Option String) → List String
  | [] => []
  | none :: _ => []
  | some u :: rest => u :: hrefPrefix rest

@[simp] theorem emit_events (st : St) (e : Event) :
    (emit st e).events = st.events ++ [e] := rfl

@[simp] theorem emit_model (st : St) (e : Event) :
    (emit st e).model = st.model := rfl

@[simp] theorem emit_vector_summaries (st : St) (e : Event) :
    (emit st e).vector_summaries = st.vector_summaries := rfl

@[simp] theorem emit_url (st : St) (e : Event) :
    (emit st e).url = st.url := rfl

@[simp] theorem emit_sub_prompt (st : St) (e : Event) :
    (emit st e).sub_prompt = st.sub_prompt := rfl

@[simp] theorem emit_chatIdx (st : St) (e : Event) :
    (emit st e).chatIdx = st.chatIdx := rfl

@[simp] theorem emit_calls (st : St) (e : Event) :
    (emit st e).calls = st.calls := rfl

@[simp] theorem emit_prompts (st : St) (e : Event) :
    (emit st e).prompts = st.prompts := rfl

@[simp] theorem emit_fetches (st : St) (e : Event) :
    (emit st e).fetches = st.fetches := rfl

@[simp] theorem emit_mined (st : St) (e : Event) :
    (emit st e).mined = st.mined := rfl

@[simp] theorem doChat_fst (o : Oracle) (p : String) (st : St) :
    (doChat o p st).1 = o.chat st.model st.chatIdx p := rfl

@[simp] theorem doChat_events (o : Oracle) (p : String) (st : St) :
    (doChat o p st).2.events = st.events := rfl

@[simp] theorem doChat_model (o : Oracle) (p : String) (st : St) :
    (doChat o p st).2.model = st.model := rfl

@[simp] theorem doChat_vector_summaries (o : Oracle) (p : String) (st : St) :
    (doChat o p st).2.vector_summaries = st.vector_summaries := rfl

@[simp] theorem doChat_url (o : Oracle) (p : String) (st : St) :
    (doChat o p st).2.url = st.url := rfl

@[simp] theorem doChat_sub_prompt (o : Oracle) (p : String) (st : St) :
    (doChat o p st).2.sub_prompt = st.sub_prompt := rfl

@[simp] theorem doChat_chatIdx (o : Oracle) (p : String) (st : St) :
    (doChat o p st).2.chatIdx = st.chatIdx + 1 := rfl

@[simp] theorem doChat_calls (o : Oracle) (p : String) (st : St) :
    (doChat o p st).2.calls = st.calls ++ [st.model] := rfl

@[simp] theorem doChat_prompts (o : Oracle) (p : String) (st : St) :
    (doChat o p st).2.prompts = st.prompts ++ [p] := rfl

@[simp] theorem doChat_fetches (o : Oracle) (p : String) (st : St) :
    (doChat o p st).2.fetches = st.fetches := rfl

@[simp] theorem doChat_mined (o : Oracle) (p : String) (st : St) :
    (doChat o p st).2.mined = st.mined := rfl

@[simp] theorem countFinished_nil : countFinished [] = 0 := rfl

@[simp] theorem countFinished_append (l l' : List Event) :
    countFinished (l ++ l') = countFinished l + countFinished l' :=
  List.countP_append _ _ _

@[simp] theorem countFinished_log (t m : String) :
    countFinished [Event.log t m] = 0 := rfl

@[simp] theorem countFinished_query (q : String) :
    countFinished [Event.query q] = 0 := rfl

@[simp] theorem countFinished_url (q u : String) :
    countFinished [Event.url q u] = 0 := rfl

@[simp] theorem countFinished_vectorIntel (q t : String) :
    countFinished [Event.vectorIntel q t] = 0 := rfl

@[simp] theorem countFinished_masterSection (t c : String) :
    countFinished [Event.masterSection t c] = 0 := rfl

@[simp] theorem countFinished_progress (p : Nat) :
    countFinished [Event.progress p] = 0 := rfl

@[simp] theorem countFinished_finished :
    countFinished [Event.finished] = 1 := rfl

@[simp] theorem countFinished_chart (d : String) :
    countFinished [Event.chart d] = 0 := rfl

@[simp] theorem countFinished_image (q u : String) :
    countFinished [Event.image q u] = 0 := rfl

@[simp] theorem countFinished_analytical (q t : String) :
    countFinished [Event.analytical q t] = 0 := rfl

@[simp] theorem masterPairs_nil : masterPairs [] = [] := rfl

@[simp] theorem masterPairs_append (l l' : List Event) :
    masterPairs (l ++ l') = masterPairs l ++ masterPairs l' :=
  List.filterMap_append _ _ _

@[simp] theorem masterPairs_log (t m : String) :
    masterPairs [Event.log t m] = [] := rfl

@[simp] theorem masterPairs_query (q : String) :
    masterPairs [Event.query q] = [] := rfl

@[simp] theorem masterPairs_url (q u : String) :
    masterPairs [Event.url q u] = [] := rfl

@[simp] theorem masterPairs_vectorIntel (q t : String) :
    masterPairs [Event.vectorIntel q t] = [] := rfl

@[simp] theorem masterPairs_masterSection (t c : String) :
    masterPairs [Event.masterSection t c] = [(t, c)] := rfl

@[simp] theorem masterPairs_progress (p : Nat) :
    masterPairs [Event.progress p] = [] := rfl

@[simp] theorem masterPairs_finished :
    masterPairs [Event.finished] = [] := rfl

@[simp] theorem masterPairs_chart (d : String) :
    masterPairs [Event.chart d] = [] := rfl

@[simp] theorem masterPairs_image (q u : String) :
    masterPairs [Event.image q u] = [] := rfl

@[simp] theorem masterPairs_analytical (q t : String) :
    masterPairs [Event.analytical q t] = [] := rfl


@[simp] theorem countFinished_cons (e : Event) (l : List Event) :
    countFinished (e :: l)
      = (if isFinished e then 1 else 0) + countFinished l := by
  simp [countFinished, List.countP_cons]
  rcases h : isFinished e <;> simp [h, Nat.add_comm]

@[simp] theorem masterPairs_cons (e : Event) (l : List Event) :
    masterPairs (e :: l)
      = (match e with
          | Event.masterSection t c => [(t, c)]
          | _ => none.toList) ++ masterPairs l := by
  cases e <;> rfl

@[simp] theorem isFinished_log (t m : String) :
    isFinished (Event.log t m) = false := rfl

@[simp] theorem isFinished_query (q : String) :
    isFinished (Event.query q) = false := rfl

@[simp] theorem isFinished_url (q u : String) :
    isFinished (Event.url q u) = false := rfl

@[simp] theorem isFinished_vectorIntel (q t : String) :
    isFinished (Event.vectorIntel q t) = false := rfl

@[simp] theorem isFinished_masterSection (t c : String) :
    isFinished (Event.masterSection t c) = false := rfl

@[simp] theorem isFinished_progress (p : Nat) :
    isFinished (Event.progress p) = false := rfl

@[simp] theorem isFinished_finished : isFinished Event.finished = true := rfl

@[simp] theorem isFinished_chart (d : String) :
    isFinished (Event.chart d) = false := rfl

@[simp] theorem isFinished_image (q u : String) :
    isFinished (Event.image q u) = false := rfl

@[simp] theorem isFinished_analytical (q t : String) :
    isFinished (Event.analytical q t) = false := rfl


theorem imgFold_cf (q : String) :
    ∀ (imgs : List String) (st : St),
      countFinished
        ((imgs.foldl (fun s im => emit s (Event.image q im)) st).events)
        = countFinished st.events := by
  intro imgs
  induction imgs with
  | nil => intro st; rfl
  | cons im rest ih => intro st; rw [List.foldl_cons, ih]; simp

theorem imgFold_mp (q : String) :
    ∀ (imgs : List String) (st : St),
      masterPairs
        ((imgs.foldl (fun s im => emit s (Event.image q im)) st).events)
        = masterPairs st.events := by
  intro imgs
  induction imgs with
  | nil => intro st; rfl
  | cons im rest ih => intro st; rw [List.foldl_cons, ih]; simp

theorem imgFold_mem {x : Event} (q : String) :
    ∀ (imgs : List String) (st : St), x ∈ st.events →
      x ∈ (imgs.foldl (fun s im => emit s (Event.image q im)) st).events := by
  intro imgs
  induction imgs with
  | nil => intro st h; exact h
  | cons im rest ih =>
      intro st h
      rw [List.foldl_cons]
      exact ih _ (by simp [h])

theorem chatRetryLoop_cf (o : Oracle) (p : String) (k : Nat) :
    ∀ r a st,
      countFinished ((chatRetryLoop o p k r a st).2).events
        = countFinished st.events := by
  intro r
  induction r with
  | zero => intro a st; rfl
  | succ r ih =>
      intro a st
      unfold chatRetryLoop
      simp only [doChat, emit_model, emit_chatIdx]
      cases hc : o.chat st.model st.chatIdx p with
      | ok s => simp
      | error e =>
          cases r with
          | zero => simp
          | succ r' => simp [ih]

theorem chatRetryLoop_mp (o : Oracle) (p : String) (k : Nat) :
    ∀ r a st,
      masterPairs ((chatRetryLoop o p k r a st).2).events
        = masterPairs st.events := by
  intro r
  induction r with
  | zero => intro a st; rfl
  | succ r ih =>
      intro a st
      unfold chatRetryLoop
      simp only [doChat, emit_model, emit_chatIdx]
      cases hc : o.chat st.model st.chatIdx p with
      | ok s => simp
      | error e =>
          cases r with
          | zero => simp
          | succ r' => simp [ih]

theorem chatRetryLoop_mem (o : Oracle) (p : String) (k : Nat) {x : Event} :
    ∀ r a st, x ∈ st.events → x ∈ ((chatRetryLoop o p k r a st).2).events := by
  intro r
  induction r with
  | zero => intro a st h; exact h
  | succ r ih =>
      intro a st h
      unfold chatRetryLoop
      simp only [doChat, emit_model, emit_chatIdx]
      cases hc : o.chat st.model st.chatIdx p with
      | ok s => simp [h]
      | error e =>
          cases r with
          | zero => simp [h]
          | succ r' =>
              apply ih
              simp [h]

theorem chatRetryLoop_state (o : Oracle) (p : String) (k : Nat) :
    ∀ r a st,
      ((chatRetryLoop o p k r a st).2).model = st.model ∧
      ((chatRetryLoop o p k r a st).2).vector_summaries = st.vector_summaries ∧
      ((chatRetryLoop o p k r a st).2).url = st.url ∧
      ((chatRetryLoop o p k r a st).2).sub_prompt = st.sub_prompt ∧
      ((chatRetryLoop o p k r a st).2).fetches = st.fetches ∧
      ((chatRetryLoop o p k r a st).2).mined = st.mined := by
  intro r
  induction r with
  | zero => intro a st; exact ⟨rfl, rfl, rfl, rfl, rfl, rfl⟩
  | succ r ih =>
      intro a st
      unfold chatRetryLoop
      simp only [doChat, emit_model, emit_chatIdx]
      cases hc : o.chat st.model st.chatIdx p with
      | ok s => simp
      | error e =>
          cases r with
          | zero => simp
          | succ r' => simp [ih]

theorem chatRetryLoop_ok_evidence (o : Oracle) (p : String) (k : Nat) :
    ∀ r a st s st', chatRetryLoop o p k r a st = (Except.ok (some s), st') →
      ∃ m i pr, o.chat m i pr = Except.ok s := by
  intro r
  induction r with
  | zero => intro a st s st' h; simp [chatRetryLoop] at h
  | succ r ih =>
      intro a st s st' h
      unfold chatRetryLoop at h
      simp only [doChat, emit_model, emit_chatIdx] at h
      cases hc : o.chat st.model st.chatIdx p with
      | ok s' =>
          rw [hc] at h
          simp only [Prod.mk.injEq, Except.ok.injEq, Option.some.injEq] at h
          exact ⟨st.model, st.chatIdx, p, by rw [hc, h.1]⟩
      | error e =>
          rw [hc] at h
          cases r with
          | zero => simp at h
          | succ r' => exact ih _ _ _ _ h

theorem chatRetryLoop_ne_ok_none (o : Oracle) (p : String) (k : Nat) :
    ∀ r a st, 1 ≤ r → (chatRetryLoop o p k r a st).1 ≠ Except.ok none := by
  intro r
  induction r with
  | zero => intro a st h; omega
  | succ r ih =>
      intro a st _
      unfold chatRetryLoop
      simp only [doChat, emit_model, emit_chatIdx]
      cases hc : o.chat st.model st.chatIdx p with
      | ok s => simp
      | error e =>
          cases r with
          | zero => simp
          | succ r' => exact ih _ _ (by omega)

theorem chat_with_retry_cf (o : Oracle) (p : String) (k : Nat) (st : St) :
    countFinished ((chat_with_retry o p k st).2).events
      = countFinished st.events :=
  chatRetryLoop_cf o p k k 0 st

theorem chat_with_retry_mp (o : Oracle) (p : String) (k : Nat) (st : St) :
    masterPairs ((chat_with_retry o p k st).2).events
      = masterPairs st.events :=
  chatRetryLoop_mp o p k k 0 st

theorem chat_with_retry_mem (o : Oracle) (p : String) (k : Nat) {x : Event}
    (st : St) (h : x ∈ st.events) :
    x ∈ ((chat_with_retry o p k st).2).events :=
  chatRetryLoop_mem o p k k 0 st h

theorem chat_with_retry_state (o : Oracle) (p : String) (k : Nat) (st : St) :
    ((chat_with_retry o p k st).2).model = st.model ∧
    ((chat_with_retry o p k st).2).vector_summaries = st.vector_summaries ∧
    ((chat_with_retry o p k st).2).url = st.url ∧
    ((chat_with_retry o p k st).2).sub_prompt = st.sub_prompt ∧
    ((chat_with_retry o p k st).2).fetches = st.fetches ∧
    ((chat_with_retry o p k st).2).mined = st.mined :=
  chatRetryLoop_state o p k k 0 st

theorem chat_with_retry_ok_evidence (o : Oracle) (p : String) (k : Nat)
    (st : St) (s : String) (st' : St)
    (h : chat_with_retry o p k st = (Except.ok (some s), st')) :
    ∃ m i pr, o.chat m i pr = Except.ok s :=
  chatRetryLoop_ok_evidence o p k k 0 st s st' h

theorem chat_with_retry_ne_ok_none (o : Oracle) (p : String) (k : Nat)
    (st : St) (hk : 1 ≤ k) :
    (chat_with_retry o p k st).1 ≠ Except.ok none :=
  chatRetryLoop_ne_ok_none o p k k 0 st hk

theorem safeChatLoop_cf (o : Oracle) (p : String) :
    ∀ r a tot le st,
      countFinished ((safeChatLoop o p r a tot le st).2).events
        = countFinished st.events := by
  intro r
  induction r with
  | zero => intro a tot le st; rfl
  | succ r ih =>
      intro a tot le st
      unfold safeChatLoop
      simp only [doChat]
      cases hc : o.chat st.model st.chatIdx p with
      | ok s => simp
      | error e => simp [ih]

theorem safeChatLoop_mp (o : Oracle) (p : String) :
    ∀ r a tot le st,
      masterPairs ((safeChatLoop o p r a tot le st).2).events
        = masterPairs st.events := by
  intro r
  induction r with
  | zero => intro a tot le st; rfl
  | succ r ih =>
      intro a tot le st
      unfold safeChatLoop
      simp only [doChat]
      cases hc : o.chat st.model st.chatIdx p with
      | ok s => simp
      | error e => simp [ih]

theorem safeChatLoop_state (o : Oracle) (p : String) :
    ∀ r a tot le st,
      ((safeChatLoop o p r a tot le st).2).model = st.model ∧
      ((safeChatLoop o p r a tot le st).2).vector_summaries
        = st.vector_summaries ∧
      ((safeChatLoop o p r a tot le st).2).url = st.url ∧
      ((safeChatLoop o p r a tot le st).2).sub_prompt = st.sub_prompt ∧
      ((safeChatLoop o p r a tot le st).2).fetches = st.fetches ∧
      ((safeChatLoop o p r a tot le st).2).mined = st.mined := by
  intro r
  induction r with
  | zero => intro a tot le st; exact ⟨rfl, rfl, rfl, rfl, rfl, rfl⟩
  | succ r ih =>
      intro a tot le st
      unfold safeChatLoop
      simp only [doChat]
      cases hc : o.chat st.model st.chatIdx p with
      | ok s => simp
      | error e => simp [ih]

theorem safeChatLoop_ok_evidence (o : Oracle) (p : String) :
    ∀ r a tot le st s st',
      safeChatLoop o p r a tot le st = (Except.ok s, st') →
      ∃ m i pr, o.chat m i pr = Except.ok s := by
  intro r
  induction r with
  | zero => intro a tot le st s st' h; simp [safeChatLoop] at h
  | succ r ih =>
      intro a tot le st s st' h
      unfold safeChatLoop at h
      simp only [doChat] at h
      cases hc : o.chat st.model st.chatIdx p with
      | ok s' =>
          rw [hc] at h
          simp only [Prod.mk.injEq, Except.ok.injEq] at h
          exact ⟨st.model, st.chatIdx, p, by rw [hc, h.1]⟩
      | error e =>
          rw [hc] at h
          exact ih _ _ _ _ _ _ h

theorem safe_chat_cf (o : Oracle) (p : String) (k : Nat) (st : St) :
    countFinished ((safe_chat o p k st).2).events
      = countFinished st.events := by
  unfold safe_chat
  cases h : safeChatLoop o p (k + 1) 0 (k + 1) "" st with
  | mk r st' =>
      cases r with
      | ok s =>
          have := safeChatLoop_cf o p (k + 1) 0 (k + 1) "" st
          rw [h] at this
          exact this
      | error e =>
          have hcf := safeChatLoop_cf o p (k + 1) 0 (k + 1) "" st
          rw [h] at hcf
          by_cases hm : st'.model = FALLBACK_MODEL
          · simp [hm, hcf]
          · simp [hm, hcf]

theorem safe_chat_mp (o : Oracle) (p : String) (k : Nat) (st : St) :
    masterPairs ((safe_chat o p k st).2).events
      = masterPairs st.events := by
  unfold safe_chat
  cases h : safeChatLoop o p (k + 1) 0 (k + 1) "" st with
  | mk r st' =>
      cases r with
      | ok s =>
          have := safeChatLoop_mp o p (k + 1) 0 (k + 1) "" st
          rw [h] at this
          exact this
      | error e =>
          have hmp := safeChatLoop_mp o p (k + 1) 0 (k + 1) "" st
          rw [h] at hmp
          by_cases hm : st'.model = FALLBACK_MODEL
          · simp [hm, hmp]
          · simp [hm, hmp]

theorem safe_chat_state (o : Oracle) (p : String) (k : Nat) (st : St) :
    ((safe_chat o p k st).2).vector_summaries = st.vector_summaries ∧
    ((safe_chat o p k st).2).url = st.url ∧
    ((safe_chat o p k st).2).sub_prompt = st.sub_prompt ∧
    ((safe_chat o p k st).2).fetches = st.fetches ∧
    ((safe_chat o p k st).2).mined = st.mined := by
  unfold safe_chat
  cases h : safeChatLoop o p (k + 1) 0 (k + 1) "" st with
  | mk r st' =>
      have hst := safeChatLoop_state o p (k + 1) 0 (k + 1) "" st
      rw [h] at hst
      cases r with
      | ok s => exact ⟨hst.2.1, hst.2.2.1, hst.2.2.2.1, hst.2.2.2.2.1,
          hst.2.2.2.2.2⟩
      | error e =>
          by_cases hm : st'.model = FALLBACK_MODEL
          · simp only [hm, if_pos rfl]
            exact ⟨hst.2.1, hst.2.2.1, hst.2.2.2.1, hst.2.2.2.2.1,
              hst.2.2.2.2.2⟩
          · simp only [hm, if_neg hm, doChat]
            exact ⟨hst.2.1, hst.2.2.1, hst.2.2.2.1, hst.2.2.2.2.1,
              hst.2.2.2.2.2⟩

theorem safe_chat_ok_evidence (o : Oracle) (p : String) (k : Nat)
    (st : St) (s : String) (st' : St)
    (h : safe_chat o p k st = (Except.ok s, st')) :
    ∃ m i pr, o.chat m i pr = Except.ok s := by
  unfold safe_chat at h
  cases hl : safeChatLoop o p (k + 1) 0 (k + 1) "" st with
  | mk r st₁ =>
      rw [hl] at h
      cases r with
      | ok s' =>
          simp only [Prod.mk.injEq, Except.ok.injEq] at h
          obtain ⟨h1, _⟩ := h
          exact h1 ▸
            safeChatLoop_ok_evidence o p (k + 1) 0 (k + 1) "" st s' st₁ hl
      | error e =>
          by_cases hm : st₁.model = FALLBACK_MODEL
          · simp [hm] at h
          · dsimp only at h
            rw [if_neg hm] at h
            simp only [doChat, Prod.mk.injEq] at h
            exact ⟨FALLBACK_MODEL, st₁.chatIdx, p, h.1⟩

theorem agentHrefLoop_cf (q : String) :
    ∀ rs st, countFinished ((agentHrefLoop q rs st).events)
      = countFinished st.events := by
  intro rs
  induction rs with
  | nil => intro st; rfl
  | cons r rest ih =>
      intro st
      cases r with
      | none => rw [agentHrefLoop, ih]
      | some u => rw [agentHrefLoop, ih]; simp

theorem agentHrefLoop_mp (q : String) :
    ∀ rs st, masterPairs ((agentHrefLoop q rs st).events)
      = masterPairs st.events := by
  intro rs
  induction rs with
  | nil => intro st; rfl
  | cons r rest ih =>
      intro st
      cases r with
      | none => rw [agentHrefLoop, ih]
      | some u => rw [agentHrefLoop, ih]; simp

theorem agentHrefLoop_state (q : String) :
    ∀ rs st,
      (agentHrefLoop q rs st).model = st.model ∧
      (agentHrefLoop q rs st).vector_summaries = st.vector_summaries ∧
      (agentHrefLoop q rs st).sub_prompt = st.sub_prompt ∧
      (agentHrefLoop q rs st).chatIdx = st.chatIdx ∧
      (agentHrefLoop q rs st).calls = st.calls ∧
      (agentHrefLoop q rs st).prompts = st.prompts ∧
      (agentHrefLoop q rs st).fetches = st.fetches ∧
      (agentHrefLoop q rs st).mined = st.mined := by
  intro rs
  induction rs with
  | nil => intro st; exact ⟨rfl, rfl, rfl, rfl, rfl, rfl, rfl, rfl⟩
  | cons r rest ih =>
      intro st
      cases r with
      | none => rw [agentHrefLoop]; exact ih _
      | some u => rw [agentHrefLoop]; exact ih _

theorem agentHrefLoop_url (q : String) :
    ∀ rs st, (agentHrefLoop q rs st).url
      = match lastBind rs with
        | some r => some r
        | none => st.url := by
  intro rs
  induction rs with
  | nil => intro st; rfl
  | cons r rest ih =>
      intro st
      cases r with
      | none =>
          rw [agentHrefLoop, ih]
          cases h : lastBind rest with
          | some v => simp [lastBind, h]
          | none => simp [lastBind, h]
      | some u =>
          rw [agentHrefLoop, ih]
          cases h : lastBind rest with
          | some v => simp [lastBind, h]
          | none => simp [lastBind, h, emit]

@[simp] theorem outSt_ok (st : St) : outSt (Except.ok st) = st := rfl

@[simp] theorem outSt_error (e : String) (st : St) :
    outSt (Except.error (e, st)) = st := rfl

theorem agentFetchBlock_inv (o : Oracle) (st : St) :
    ((agentFetchBlock o st).state).model = st.model ∧
    ((agentFetchBlock o st).state).vector_summaries = st.vector_summaries ∧
    ((agentFetchBlock o st).state).sub_prompt = st.sub_prompt ∧
    ((agentFetchBlock o st).state).chatIdx = st.chatIdx ∧
    ((agentFetchBlock o st).state).calls = st.calls ∧
    ((agentFetchBlock o st).state).prompts = st.prompts ∧
    ((agentFetchBlock o st).state).mined = st.mined ∧
    countFinished ((agentFetchBlock o st).state).events
      = countFinished st.events ∧
    masterPairs ((agentFetchBlock o st).state).events
      = masterPairs st.events := by
  unfold agentFetchBlock
  cases hu : st.url with
  | none => exact ⟨rfl, rfl, rfl, rfl, rfl, rfl, rfl, rfl, rfl⟩
  | some r =>
      cases r with
      | none => simp [MineStep.state]
      | some u =>
          cases hf : o.fetchExtract u <;>
            simp [hf, MineStep.state]

theorem agentFetchBlock_fetches (o : Oracle) (st : St) :
    ((agentFetchBlock o st).state).fetches
      = st.fetches ++ st.url.toList := by
  unfold agentFetchBlock
  cases hu : st.url with
  | none => simp [MineStep.state]
  | some r =>
      cases r with
      | none => simp [MineStep.state]
      | some u =>
          cases hf : o.fetchExtract u <;>
            simp [hf, MineStep.state]

theorem agentFetchBlock_abort (o : Oracle) (st : St) (hu : st.url = none) :
    agentFetchBlock o st
      = MineStep.abort "name 'url' is not defined" st := by
  unfold agentFetchBlock
  rw [hu]

theorem agentSummarizeBlock_cf (o : Oracle) (nq idx : Nat) (q : String)
    (raw : List String) (st : St) :
    countFinished ((outSt (agentSummarizeBlock o nq idx q raw st)).events)
      = countFinished st.events := by
  unfold agentSummarizeBlock
  cases raw with
  | nil => simp
  | cons t rest =>
      cases h : safe_chat o (agentSummarizePrompt q (t :: rest)) 2 st with
      | mk r st' =>
          have hcf := safe_chat_cf o (agentSummarizePrompt q (t :: rest)) 2 st
          rw [h] at hcf
          cases r with
          | ok intel => simp [hcf]
          | error e => simp [hcf]

theorem agentSummarizeBlock_mp (o : Oracle) (nq idx : Nat) (q : String)
    (raw : List String) (st : St) :
    masterPairs ((outSt (agentSummarizeBlock o nq idx q raw st)).events)
      = masterPairs st.events := by
  unfold agentSummarizeBlock
  cases raw with
  | nil => simp
  | cons t rest =>
      cases h : safe_chat o (agentSummarizePrompt q (t :: rest)) 2 st with
      | mk r st' =>
          have hmp := safe_chat_mp o (agentSummarizePrompt q (t :: rest)) 2 st
          rw [h] at hmp
          cases r with
          | ok intel => simp [hmp]
          | error e => simp [hmp]

theorem agentSummarizeBlock_ok (o : Oracle) (nq idx : Nat) (q : String)
    (raw : List String) (st st' : St)
    (h : agentSummarizeBlock o nq idx q raw st = Except.ok st') :
    ∃ oc, st'.mined = st.mined ++ [(q, oc)] ∧
      st'.vector_summaries
        = st.vector_summaries ++ (minedSummary (q, oc)).toList ∧
      st'.fetches = st.fetches ∧
      ∀ intel, oc = some intel → ∃ m i pr, o.chat m i pr = Except.ok intel := by
  unfold agentSummarizeBlock at h
  cases raw with
  | nil =>
      simp only [Except.ok.injEq] at h
      refine ⟨none, ?_⟩
      rw [← h]
      simp [minedSummary]
  | cons t rest =>
      cases hs : safe_chat o (agentSummarizePrompt q (t :: rest)) 2 st with
      | mk r st₁ =>
          rw [hs] at h
          have hstate := safe_chat_state o (agentSummarizePrompt q (t :: rest)) 2 st
          rw [hs] at hstate
          dsimp only at hstate
          cases r with
          | ok intel =>
              simp only [Except.ok.injEq] at h
              refine ⟨some intel, ?_⟩
              rw [← h]
              refine ⟨?_, ?_, ?_, ?_⟩
              · simp [hstate.2.2.2.2]
              · simp [minedSummary, researchHeader, hstate.1]
              · simp [hstate.2.2.2.1]
              · intro i hi
                obtain ⟨m, j, pr, hev⟩ :=
                  safe_chat_ok_evidence o (agentSummarizePrompt q (t :: rest))
                    2 st intel st₁ hs
                exact ⟨m, j, pr, by rw [hev]; cases hi; rfl⟩
          | error e => simp at h

theorem agentSummarizeBlock_err (o : Oracle) (nq idx : Nat) (q : String)
    (raw : List String) (st st' : St) (e : String)
    (h : agentSummarizeBlock o nq idx q raw st = Except.error (e, st')) :
    st'.vector_summaries = st.vector_summaries ∧ st'.mined = st.mined ∧
      st'.fetches = st.fetches := by
  unfold agentSummarizeBlock at h
  cases raw with
  | nil => simp at h
  | cons t rest =>
      cases hs : safe_chat o (agentSummarizePrompt q (t :: rest)) 2 st with
      | mk r st₁ =>
          rw [hs] at h
          have hstate := safe_chat_state o (agentSummarizePrompt q (t :: rest)) 2 st
          rw [hs] at hstate
          dsimp only at hstate
          cases r with
          | ok intel => simp at h
          | error e' =>
              simp only [Except.error.injEq, Prod.mk.injEq] at h
              rw [← h.2]
              exact ⟨hstate.1, hstate.2.2.2.2, hstate.2.2.2.1⟩

theorem lastBind_all_none :
    ∀ rs : List (Option String), rs ≠ [] → (∀ x ∈ rs, x = none) →
      lastBind rs = some none := by
  intro rs
  induction rs with
  | nil => intro h _; exact absurd rfl h
  | cons r rest ih =>
      intro _ h
      have hr := h r (by simp)
      subst hr
      rw [lastBind]
      cases rest with
      | nil => rfl
      | cons r' rest' =>
          rw [ih (by simp) (fun x hx => h x (by simp [hx]))]

@[simp] theorem minedSummaries_append (l l' : List (String × Option String)) :
    minedSummaries (l ++ l') = minedSummaries l ++ minedSummaries l' :=
  List.filterMap_append _ _ _

@[simp] theorem minedSummary_none (q : String) :
    minedSummary (q, none) = none := rfl

@[simp] theorem minedSummary_some (q intel : String) :
    minedSummary (q, some intel) = some (researchHeader q intel) := rfl

theorem agentMineTail_cf (o : Oracle) (nq idx : Nat) (q : String) (st₂ : St) :
    countFinished ((outSt (agentMineTail o nq idx q st₂)).events)
      = countFinished st₂.events := by
  unfold agentMineTail
  have hbc := (agentFetchBlock_inv o st₂).2.2.2.2.2.2.2.1
  cases hb : agentFetchBlock o st₂ with
  | abort e st₃ =>
      rw [hb] at hbc
      simpa [MineStep.state] using hbc
  | skip st₃ =>
      rw [hb] at hbc
      simpa [MineStep.state] using hbc
  | proceed raw st₃ =>
      rw [hb] at hbc
      simp only [MineStep.state] at hbc
      rw [agentSummarizeBlock_cf, hbc]

theorem agentMineTail_mp (o : Oracle) (nq idx : Nat) (q : String) (st₂ : St) :
    masterPairs ((outSt (agentMineTail o nq idx q st₂)).events)
      = masterPairs st₂.events := by
  unfold agentMineTail
  have hbc := (agentFetchBlock_inv o st₂).2.2.2.2.2.2.2.2
  cases hb : agentFetchBlock o st₂ with
  | abort e st₃ =>
      rw [hb] at hbc
      simpa [MineStep.state] using hbc
  | skip st₃ =>
      rw [hb] at hbc
      simpa [MineStep.state] using hbc
  | proceed raw st₃ =>
      rw [hb] at hbc
      simp only [MineStep.state] at hbc
      rw [agentSummarizeBlock_mp, hbc]

theorem agentMineTail_fetches (o : Oracle) (nq idx : Nat) (q : String)
    (st₂ : St) :
    (outSt (agentMineTail o nq idx q st₂)).fetches
      = st₂.fetches ++ st₂.url.toList := by
  unfold agentMineTail
  have hbf := agentFetchBlock_fetches o st₂
  cases hb : agentFetchBlock o st₂ with
  | abort e st₃ =>
      rw [hb] at hbf
      simpa [MineStep.state] using hbf
  | skip st₃ =>
      rw [hb] at hbf
      simpa [MineStep.state] using hbf
  | proceed raw st₃ =>
      rw [hb] at hbf
      simp only [MineStep.state] at hbf
      cases hr : agentSummarizeBlock o nq idx q raw st₃ with
      | ok st' =>
          obtain ⟨oc, _, _, hf, _⟩ := agentSummarizeBlock_ok o nq idx q raw st₃ st' hr
          simp [hr, hf, hbf]
      | error p =>
          cases p with
          | mk e st' =>
              obtain ⟨_, _, hf⟩ := agentSummarizeBlock_err o nq idx q raw st₃ st' e hr
              simp [hr, hf, hbf]

theorem agentMineTail_ok (o : Oracle) (nq idx : Nat) (q : String)
    (st₂ st' : St) (h : agentMineTail o nq idx q st₂ = Except.ok st') :
    ∃ oc, st'.mined = st₂.mined ++ [(q, oc)] ∧
      st'.vector_summaries
        = st₂.vector_summaries ++ (minedSummary (q, oc)).toList ∧
      ∀ intel, oc = some intel → ∃ m i pr, o.chat m i pr = Except.ok intel := by
  unfold agentMineTail at h
  have hbi := agentFetchBlock_inv o st₂
  cases hb : agentFetchBlock o st₂ with
  | abort e st₃ => rw [hb] at h; simp at h
  | skip st₃ =>
      rw [hb] at h
      rw [hb] at hbi
      simp only [MineStep.state] at hbi
      simp only [Except.ok.injEq] at h
      refine ⟨none, ?_⟩
      rw [← h]
      simp [hbi.2.1, hbi.2.2.2.2.2.2.1]
  | proceed raw st₃ =>
      rw [hb] at h
      rw [hb] at hbi
      simp only [MineStep.state] at hbi
      obtain ⟨oc, hm, hv, _, hev⟩ :=
        agentSummarizeBlock_ok o nq idx q raw st₃ st' h
      exact ⟨oc, by rw [hm, hbi.2.2.2.2.2.2.1],
        by rw [hv, hbi.2.1], hev⟩

theorem agentMineTail_err (o : Oracle) (nq idx : Nat) (q : String)
    (st₂ st' : St) (e : String)
    (h : agentMineTail o nq idx q st₂ = Except.error (e, st')) :
    st'.vector_summaries = st₂.vector_summaries ∧ st'.mined = st₂.mined := by
  unfold agentMineTail at h
  have hbi := agentFetchBlock_inv o st₂
  cases hb : agentFetchBlock o st₂ with
  | abort e' st₃ =>
      rw [hb] at h
      rw [hb] at hbi
      simp only [MineStep.state] at hbi
      simp only [Except.error.injEq, Prod.mk.injEq] at h
      rw [← h.2]
      exact ⟨hbi.2.1, hbi.2.2.2.2.2.2.1⟩
  | skip st₃ => rw [hb] at h; simp at h
  | proceed raw st₃ =>
      rw [hb] at h
      rw [hb] at hbi
      simp only [MineStep.state] at hbi
      obtain ⟨hv, hm, _⟩ := agentSummarizeBlock_err o nq idx q raw st₃ st' e h
      exact ⟨by rw [hv, hbi.2.1], by rw [hm, hbi.2.2.2.2.2.2.1]⟩

theorem agentMineTail_abort (o : Oracle) (nq idx : Nat) (q : String)
    (st₂ : St) (hu : st₂.url = none) :
    agentMineTail o nq idx q st₂
      = Except.error ("name 'url' is not defined", st₂) := by
  unfold agentMineTail
  rw [agentFetchBlock_abort o st₂ hu]

@[simp] theorem minedSummaries_single (p : String × Option String) :
    minedSummaries [p] = (minedSummary p).toList := by
  cases p with
  | mk q oc => cases oc <;> rfl

theorem agentMineQuery_cf (o : Oracle) (nq idx : Nat) (q : String) (st : St) :
    countFinished ((outSt (agentMineQuery o nq idx q st)).events)
      = countFinished st.events := by
  unfold agentMineQuery
  cases hs : o.search idx with
  | error e => rw [agentMineTail_cf, agentHrefLoop_cf]; simp
  | ok rs => rw [agentMineTail_cf, agentHrefLoop_cf]; simp

theorem agentMineQuery_mp (o : Oracle) (nq idx : Nat) (q : String) (st : St) :
    masterPairs ((outSt (agentMineQuery o nq idx q st)).events)
      = masterPairs st.events := by
  unfold agentMineQuery
  cases hs : o.search idx with
  | error e => rw [agentMineTail_mp, agentHrefLoop_mp]; simp
  | ok rs => rw [agentMineTail_mp, agentHrefLoop_mp]; simp

theorem agentMineQuery_ok (o : Oracle) (nq idx : Nat) (q : String)
    (st st' : St) (h : agentMineQuery o nq idx q st = Except.ok st') :
    ∃ oc, st'.mined = st.mined ++ [(q, oc)] ∧
      st'.vector_summaries
        = st.vector_summaries ++ (minedSummary (q, oc)).toList ∧
      ∀ intel, oc = some intel → ∃ m i pr, o.chat m i pr = Except.ok intel := by
  unfold agentMineQuery at h
  cases hs : o.search idx with
  | error e =>
      rw [hs] at h
      dsimp only at h
      obtain ⟨oc, hm, hv, hev⟩ := agentMineTail_ok o nq idx q _ st' h
      have hl := agentHrefLoop_state q []
        (emit (emit (emit st (Event.query q))
          (Event.log "AI_THOUGHT" ("Mining Vector: " ++ q)))
          (Event.log "WARN" ("Search failed: " ++ e)))
      refine ⟨oc, ?_, ?_, hev⟩
      · rw [hm, hl.2.2.2.2.2.2.2]; simp
      · rw [hv, hl.2.1]; simp
  | ok rs =>
      rw [hs] at h
      dsimp only at h
      obtain ⟨oc, hm, hv, hev⟩ := agentMineTail_ok o nq idx q _ st' h
      have hl := agentHrefLoop_state q rs
        (emit (emit st (Event.query q))
          (Event.log "AI_THOUGHT" ("Mining Vector: " ++ q)))
      refine ⟨oc, ?_, ?_, hev⟩
      · rw [hm, hl.2.2.2.2.2.2.2]; simp
      · rw [hv, hl.2.1]; simp

theorem agentMineQuery_err (o : Oracle) (nq idx : Nat) (q : String)
    (st st' : St) (e : String)
    (h : agentMineQuery o nq idx q st = Except.error (e, st')) :
    st'.vector_summaries = st.vector_summaries ∧ st'.mined = st.mined := by
  unfold agentMineQuery at h
  cases hs : o.search idx with
  | error e' =>
      rw [hs] at h
      dsimp only at h
      obtain ⟨hv, hm⟩ := agentMineTail_err o nq idx q _ st' e h
      have hl := agentHrefLoop_state q []
        (emit (emit (emit st (Event.query q))
          (Event.log "AI_THOUGHT" ("Mining Vector: " ++ q)))
          (Event.log "WARN" ("Search failed: " ++ e')))
      constructor
      · rw [hv, hl.2.1]; simp
      · rw [hm, hl.2.2.2.2.2.2.2]; simp
  | ok rs =>
      rw [hs] at h
      dsimp only at h
      obtain ⟨hv, hm⟩ := agentMineTail_err o nq idx q _ st' e h
      have hl := agentHrefLoop_state q rs
        (emit (emit st (Event.query q))
          (Event.log "AI_THOUGHT" ("Mining Vector: " ++ q)))
      constructor
      · rw [hv, hl.2.1]; simp
      · rw [hm, hl.2.2.2.2.2.2.2]; simp

theorem agentMineQuery_fetches (o : Oracle) (nq idx : Nat) (q : String)
    (st : St) (rs : List (Option String)) (hs : o.search idx = Except.ok rs) :
    (outSt (agentMineQuery o nq idx q st)).fetches
      = st.fetches ++ (match lastBind rs with
          | some r => some r
          | none => st.url).toList := by
  unfold agentMineQuery
  rw [hs]
  dsimp only
  have hl := agentHrefLoop_state q rs
    (emit (emit st (Event.query q))
      (Event.log "AI_THOUGHT" ("Mining Vector: " ++ q)))
  have hu := agentHrefLoop_url q rs
    (emit (emit st (Event.query q))
      (Event.log "AI_THOUGHT" ("Mining Vector: " ++ q)))
  rw [agentMineTail_fetches, hl.2.2.2.2.2.2.1, hu]
  cases lastBind rs <;> simp

theorem agentMineQuery_abort (o : Oracle) (nq idx : Nat) (q : String)
    (st : St) (hu : st.url = none) (hs : searchNoResults (o.search idx)) :
    ∃ st', agentMineQuery o nq idx q st
      = Except.error ("name 'url' is not defined", st') := by
  unfold agentMineQuery
  rcases hs with h | ⟨e, h⟩
  · rw [h]
    dsimp only
    refine ⟨_, agentMineTail_abort o nq idx q _ ?_⟩
    rw [agentHrefLoop_url]
    simp [lastBind, hu]
  · rw [h]
    dsimp only
    refine ⟨_, agentMineTail_abort o nq idx q _ ?_⟩
    rw [agentHrefLoop_url]
    simp [lastBind, hu]

theorem agentMineQuery_noHref (o : Oracle) (nq idx : Nat) (q : String)
    (st : St) (rs : List (Option String)) (hs : o.search idx = Except.ok rs)
    (hne : rs ≠ []) (hall : ∀ x ∈ rs, x = none) :
    ∃ st', agentMineQuery o nq idx q st = Except.ok st' ∧
      st'.vector_summaries = st.vector_summaries ∧
      st'.mined = st.mined ++ [(q, none)] ∧
      Event.log "WARN" "Skipped URL (fetch failed): None | Empty response"
        ∈ st'.events := by
  unfold agentMineQuery
  rw [hs]
  dsimp only
  set st₂ := agentHrefLoop q rs
    (emit (emit st (Event.query q))
      (Event.log "AI_THOUGHT" ("Mining Vector: " ++ q))) with hst₂
  have hu : st₂.url = some none := by
    rw [hst₂, agentHrefLoop_url, lastBind_all_none rs hne hall]
  have hl := agentHrefLoop_state q rs
    (emit (emit st (Event.query q))
      (Event.log "AI_THOUGHT" ("Mining Vector: " ++ q)))
  rw [← hst₂] at hl
  unfold agentMineTail agentFetchBlock
  rw [hu]
  dsimp only
  refine ⟨_, rfl, ?_, ?_, ?_⟩
  · simp [emit, hl.2.1]
  · simp [emit, hl.2.2.2.2.2.2.2]
  · simp [emit]

theorem agentMineLoop_cf (o : Oracle) (nq : Nat) :
    ∀ (queries : List String) (idx : Nat) (st : St),
      countFinished ((outSt (agentMineLoop o nq idx queries st)).events)
        = countFinished st.events := by
  intro queries
  induction queries with
  | nil => intro idx st; rfl
  | cons q rest ih =>
      intro idx st
      unfold agentMineLoop
      cases hq : agentMineQuery o nq idx q st with
      | error p =>
          have := agentMineQuery_cf o nq idx q st
          rw [hq] at this
          exact this
      | ok st'' =>
          have hcf := agentMineQuery_cf o nq idx q st
          rw [hq] at hcf
          dsimp only
          rw [ih (idx + 1) st'']
          simpa using hcf

theorem agentMineLoop_mp (o : Oracle) (nq : Nat) :
    ∀ (queries : List String) (idx : Nat) (st : St),
      masterPairs ((outSt (agentMineLoop o nq idx queries st)).events)
        = masterPairs st.events := by
  intro queries
  induction queries with
  | nil => intro idx st; rfl
  | cons q rest ih =>
      intro idx st
      unfold agentMineLoop
      cases hq : agentMineQuery o nq idx q st with
      | error p =>
          have := agentMineQuery_mp o nq idx q st
          rw [hq] at this
          exact this
      | ok st'' =>
          have hmp := agentMineQuery_mp o nq idx q st
          rw [hq] at hmp
          dsimp only
          rw [ih (idx + 1) st'']
          simpa using hmp

theorem agentMineLoop_mined (o : Oracle) (nq : Nat) :
    ∀ (queries : List String) (idx : Nat) (st st' : St),
      agentMineLoop o nq idx queries st = Except.ok st' →
      st'.mined.map Prod.fst = st.mined.map Prod.fst ++ queries ∧
        (MinedInv o st → MinedInv o st') := by
  intro queries
  induction queries with
  | nil =>
      intro idx st st' h
      simp only [agentMineLoop, Except.ok.injEq] at h
      subst h
      simp
  | cons q rest ih =>
      intro idx st st' h
      unfold agentMineLoop at h
      cases hq : agentMineQuery o nq idx q st with
      | error p => rw [hq] at h; simp at h
      | ok st'' =>
          rw [hq] at h
          dsimp only at h
          obtain ⟨hmap, hinv⟩ := ih (idx + 1) st'' st' h
          obtain ⟨oc, hm, hv, hev⟩ := agentMineQuery_ok o nq idx q st st'' hq
          constructor
          · rw [hmap, hm]; simp
          · intro hI
            apply hinv
            constructor
            · rw [hv, hm, hI.1]; simp
            · intro p hp intel hpi
              rw [hm] at hp
              rcases List.mem_append.mp hp with hold | hnew
              · exact hI.2 p hold intel hpi
              · simp only [List.mem_singleton] at hnew
                subst hnew
                exact hev intel hpi

theorem agentSynthLoop_cf (o : Oracle) (target context : String) (n : Nat) :
    ∀ (secs : List (String × String)) (i : Nat) (st : St),
      countFinished ((outSt (agentSynthLoop o target context n i secs st)).events)
        = countFinished st.events := by
  intro secs
  induction secs with
  | nil => intro i st; rfl
  | cons sec rest ih =>
      intro i st
      cases sec with
      | mk title instruction =>
          unfold agentSynthLoop
          simp only [doChat, emit_model, emit_chatIdx]
          cases hc : o.chat st.model st.chatIdx
              (agentSectionPrompt target title instruction context) with
          | ok content =>
              rw [ih (i + 1)]
              simp
          | error e => simp

theorem agentSynthLoop_state (o : Oracle) (target context : String) (n : Nat) :
    ∀ (secs : List (String × String)) (i : Nat) (st : St),
      (outSt (agentSynthLoop o target context n i secs st)).vector_summaries
        = st.vector_summaries ∧
      (outSt (agentSynthLoop o target context n i secs st)).mined
        = st.mined := by
  intro secs
  induction secs with
  | nil => intro i st; exact ⟨rfl, rfl⟩
  | cons sec rest ih =>
      intro i st
      cases sec with
      | mk title instruction =>
          unfold agentSynthLoop
          simp only [doChat, emit_model, emit_chatIdx]
          cases hc : o.chat st.model st.chatIdx
              (agentSectionPrompt target title instruction context) with
          | ok content =>
              constructor
              · rw [(ih (i + 1) _).1]; simp [doChat]
              · rw [(ih (i + 1) _).2]; simp [doChat]
          | error e => exact ⟨rfl, rfl⟩

theorem agentSynthLoop_ok_master (o : Oracle) (target context : String)
    (n : Nat) :
    ∀ (secs : List (String × String)) (i : Nat) (st st' : St),
      agentSynthLoop o target context n i secs st = Except.ok st' →
      ∃ cs, masterPairs st'.events = masterPairs st.events ++ cs ∧
        cs.map Prod.fst = secs.map Prod.fst := by
  intro secs
  induction secs with
  | nil =>
      intro i st st' h
      simp only [agentSynthLoop, Except.ok.injEq] at h
      subst h
      exact ⟨[], by simp⟩
  | cons sec rest ih =>
      intro i st st' h
      cases sec with
      | mk title instruction =>
          unfold agentSynthLoop at h
          simp only [doChat, emit_model, emit_chatIdx] at h
          cases hc : o.chat st.model st.chatIdx
              (agentSectionPrompt target title instruction context) with
          | ok content =>
              rw [hc] at h
              dsimp only at h
              obtain ⟨cs, hmp, hmap⟩ := ih (i + 1) _ st' h
              refine ⟨(title, content) :: cs, ?_, by simp [hmap]⟩
              rw [hmp]
              simp
          | error e =>
              rw [hc] at h
              simp at h

theorem agentPhase1_cf (o : Oracle) (target : String) :
    countFinished ((agentPhase1 o target).2).events = 0 := by
  unfold agentPhase1
  rw [safe_chat_cf]
  simp [initSt]

theorem agentPhase1_mp (o : Oracle) (target : String) :
    masterPairs ((agentPhase1 o target).2).events = [] := by
  unfold agentPhase1
  rw [safe_chat_mp]
  simp [initSt]

theorem agentPhase1_state (o : Oracle) (target : String) :
    ((agentPhase1 o target).2).vector_summaries = [] ∧
    ((agentPhase1 o target).2).url = none ∧
    ((agentPhase1 o target).2).sub_prompt = none ∧
    ((agentPhase1 o target).2).fetches = [] ∧
    ((agentPhase1 o target).2).mined = [] := by
  unfold agentPhase1
  have h := safe_chat_state o (agentVectorPrompt target) 2
    (emit initSt (Event.log "SYSTEM" ("AGENT DEPLOYED: " ++ target)))
  simpa [initSt] using h

theorem agentRunBody_ok_cf (o : Oracle) (target : String) (st : St)
    (h : agentRunBody o target = Except.ok st) :
    countFinished st.events = 1 := by
  unfold agentRunBody at h
  cases hp : agentPhase1 o target with
  | mk r st₁ =>
      rw [hp] at h
      cases r with
      | error e => simp at h
      | ok content =>
          dsimp only at h
          cases hm : agentMineLoop o
              (agentParseQueries o.litEval content target).length 0
              (agentParseQueries o.litEval content target) st₁ with
          | error p => rw [hm] at h; simp at h
          | ok st₂ =>
              rw [hm] at h
              dsimp only at h
              cases hsy : agentSynthLoop o target
                  (pySlice (String.intercalate "\n\n"
                    (emit st₂ (Event.log "SYSTEM"
                      "Executing Sectional Master Synthesis...")).vector_summaries)
                    MAX_MASTER_CONTEXT_CHARS)
                  agentReportSections.length 0 agentReportSections
                  (emit st₂ (Event.log "SYSTEM"
                    "Executing Sectional Master Synthesis...")) with
              | error p => rw [hsy] at h; simp at h
              | ok st₄ =>
                  rw [hsy] at h
                  dsimp only at h
                  have hcf4 := agentSynthLoop_cf o target
                    (pySlice (String.intercalate "\n\n"
                      (emit st₂ (Event.log "SYSTEM"
                        "Executing Sectional Master Synthesis...")).vector_summaries)
                      MAX_MASTER_CONTEXT_CHARS)
                    agentReportSections.length agentReportSections 0
                    (emit st₂ (Event.log "SYSTEM"
                      "Executing Sectional Master Synthesis..."))
                  rw [hsy] at hcf4
                  have hcf2 := agentMineLoop_cf o
                    (agentParseQueries o.litEval content target).length
                    (agentParseQueries o.litEval content target) 0 st₁
                  rw [hm] at hcf2
                  have hcf1 := agentPhase1_cf o target
                  rw [hp] at hcf1
                  simp only [Except.ok.injEq] at h
                  rw [← h]
                  simp only [outSt_ok] at hcf4 hcf2
                  simp only [emit_events, countFinished_append] at hcf4
                  simp at hcf4 hcf2 hcf1 ⊢
                  omega

theorem agentRunBody_err_cf (o : Oracle) (target : String) (e : String)
    (st : St) (h : agentRunBody o target = Except.error (e, st)) :
    countFinished st.events = 0 := by
  unfold agentRunBody at h
  cases hp : agentPhase1 o target with
  | mk r st₁ =>
      rw [hp] at h
      have hcf1 := agentPhase1_cf o target
      rw [hp] at hcf1
      cases r with
      | error e' =>
          simp only [Except.error.injEq, Prod.mk.injEq] at h
          rw [← h.2]
          exact hcf1
      | ok content =>
          dsimp only at h
          cases hm : agentMineLoop o
              (agentParseQueries o.litEval content target).length 0
              (agentParseQueries o.litEval content target) st₁ with
          | error p =>
              rw [hm] at h
              dsimp only at h
              cases p with
              | mk e' st₂ =>
                  simp only [Except.error.injEq, Prod.mk.injEq] at h
                  have hcf2 := agentMineLoop_cf o
                    (agentParseQueries o.litEval content target).length
                    (agentParseQueries o.litEval content target) 0 st₁
                  rw [hm] at hcf2
                  simp only [outSt_error] at hcf2
                  rw [← h.2, hcf2]
                  exact hcf1
          | ok st₂ =>
              rw [hm] at h
              dsimp only at h
              cases hsy : agentSynthLoop o target
                  (pySlice (String.intercalate "\n\n"
                    (emit st₂ (Event.log "SYSTEM"
                      "Executing Sectional Master Synthesis...")).vector_summaries)
                    MAX_MASTER_CONTEXT_CHARS)
                  agentReportSections.length 0 agentReportSections
                  (emit st₂ (Event.log "SYSTEM"
                    "Executing Sectional Master Synthesis...")) with
              | error p =>
                  rw [hsy] at h
                  dsimp only at h
                  cases p with
                  | mk e' st₃ =>
                      simp only [Except.error.injEq, Prod.mk.injEq] at h
                      have hcf3 := agentSynthLoop_cf o target
                        (pySlice (String.intercalate "\n\n"
                          (emit st₂ (Event.log "SYSTEM"
                            "Executing Sectional Master Synthesis...")).vector_summaries)
                          MAX_MASTER_CONTEXT_CHARS)
                        agentReportSections.length agentReportSections 0
                        (emit st₂ (Event.log "SYSTEM"
                          "Executing Sectional Master Synthesis..."))
                      rw [hsy] at hcf3
                      simp only [outSt_error] at hcf3
                      have hcf2 := agentMineLoop_cf o
                        (agentParseQueries o.litEval content target).length
                        (agentParseQueries o.litEval content target) 0 st₁
                      rw [hm] at hcf2
                      simp only [outSt_ok] at hcf2
                      rw [← h.2, hcf3]
                      simp only [emit_events, countFinished_append]
                      simp [hcf2, hcf1]
              | ok st₄ =>
                  rw [hsy] at h
                  simp at h

theorem pegUrlLoop_cf (o : Oracle) (q : String) :
    ∀ (results : List (Option String)) (raw : List String) (st : St),
      countFinished ((pegUrlLoop o q results raw st).2).events
        = countFinished st.events := by
  intro results
  induction results with
  | nil => intro raw st; rfl
  | cons r rest ih =>
      intro raw st
      cases r with
      | none => simp [pegUrlLoop]
      | some link =>
          unfold pegUrlLoop
          cases hi : o.images link with
          | error e => rw [ih]; simp
          | ok imgs =>
              rw [ih]
              rw [imgFold_cf]
              simp

theorem pegUrlLoop_mp (o : Oracle) (q : String) :
    ∀ (results : List (Option String)) (raw : List String) (st : St),
      masterPairs ((pegUrlLoop o q results raw st).2).events
        = masterPairs st.events := by
  intro results
  induction results with
  | nil => intro raw st; rfl
  | cons r rest ih =>
      intro raw st
      cases r with
      | none => simp [pegUrlLoop]
      | some link =>
          unfold pegUrlLoop
          cases hi : o.images link with
          | error e => rw [ih]; simp
          | ok imgs =>
              rw [ih]
              rw [imgFold_mp]
              simp


theorem pegSummarizeTry_cf (o : Oracle) (q : String) (st : St) :
    countFinished ((pegSummarizeTry o q st).events)
      = countFinished st.events := by
  unfold pegSummarizeTry
  cases hsp : st.sub_prompt with
  | none => simp
  | some sp =>
      dsimp only
      cases hc : chat_with_retry o sp 3 st with
      | mk r st₁ =>
          have hcf := chat_with_retry_cf o sp 3 st
          rw [hc] at hcf
          dsimp only at hcf
          cases r with
          | error e => simp [hcf]
          | ok oc =>
              cases oc with
              | none => simp [hcf]
              | some intel =>
                  dsimp only
                  cases hc2 : chat_with_retry o (pegAnalyticalPrompt intel) 3
                      (emit st₁ (Event.vectorIntel q intel)) with
                  | mk r2 st₂ =>
                      have hcf2 := chat_with_retry_cf o
                        (pegAnalyticalPrompt intel) 3
                        (emit st₁ (Event.vectorIntel q intel))
                      rw [hc2] at hcf2
                      dsimp only at hcf2
                      simp only [emit_events, countFinished_append] at hcf2
                      cases r2 with
                      | error e => simp [hcf2, hcf]
                      | ok oc2 =>
                          cases oc2 with
                          | none => simp [hcf2, hcf]
                          | some a => simp [hcf2, hcf]

theorem pegSummarizeBlock_cf (o : Oracle) (q : String)
    (rawTexts : List String) (st : St) :
    countFinished ((pegSummarizeBlock o q rawTexts st).events)
      = countFinished st.events := by
  unfold pegSummarizeBlock
  cases rawTexts with
  | nil => rw [pegSummarizeTry_cf]
  | cons t rest => rw [pegSummarizeTry_cf]

theorem pegSummarizeTry_mp (o : Oracle) (q : String) (st : St) :
    masterPairs ((pegSummarizeTry o q st).events)
      = masterPairs st.events := by
  unfold pegSummarizeTry
  cases hsp : st.sub_prompt with
  | none => simp
  | some sp =>
      dsimp only
      cases hc : chat_with_retry o sp 3 st with
      | mk r st₁ =>
          have hmp := chat_with_retry_mp o sp 3 st
          rw [hc] at hmp
          dsimp only at hmp
          cases r with
          | error e => simp [hmp]
          | ok oc =>
              cases oc with
              | none => simp [hmp]
              | some intel =>
                  dsimp only
                  cases hc2 : chat_with_retry o (pegAnalyticalPrompt intel) 3
                      (emit st₁ (Event.vectorIntel q intel)) with
                  | mk r2 st₂ =>
                      have hmp2 := chat_with_retry_mp o
                        (pegAnalyticalPrompt intel) 3
                        (emit st₁ (Event.vectorIntel q intel))
                      rw [hc2] at hmp2
                      dsimp only at hmp2
                      simp only [emit_events, masterPairs_append] at hmp2
                      cases r2 with
                      | error e => simp [hmp2, hmp]
                      | ok oc2 =>
                          cases oc2 with
                          | none => simp [hmp2, hmp]
                          | some a => simp [hmp2, hmp]

theorem pegSummarizeBlock_mp (o : Oracle) (q : String)
    (rawTexts : List String) (st : St) :
    masterPairs ((pegSummarizeBlock o q rawTexts st).events)
      = masterPairs st.events := by
  unfold pegSummarizeBlock
  cases rawTexts with
  | nil => rw [pegSummarizeTry_mp]
  | cons t rest => rw [pegSummarizeTry_mp]

theorem pegSummarizeTry_vs (o : Oracle) (q : String) (st : St) :
    (pegSummarizeTry o q st).vector_summaries = st.vector_summaries ∨
      ∃ intel, (pegSummarizeTry o q st).vector_summaries
          = st.vector_summaries ++ [researchHeader q intel] ∧
        ∃ m i pr, o.chat m i pr = Except.ok intel := by
  unfold pegSummarizeTry
  cases hsp : st.sub_prompt with
  | none => left; simp
  | some sp =>
      dsimp only
      cases hc : chat_with_retry o sp 3 st with
      | mk r st₁ =>
          have hst := chat_with_retry_state o sp 3 st
          rw [hc] at hst
          dsimp only at hst
          cases r with
          | error e => left; simp [hst.2.1]
          | ok oc =>
              cases oc with
              | none => left; simp [hst.2.1]
              | some intel =>
                  dsimp only
                  cases hc2 : chat_with_retry o (pegAnalyticalPrompt intel) 3
                      (emit st₁ (Event.vectorIntel q intel)) with
                  | mk r2 st₂ =>
                      have hst2 := chat_with_retry_state o
                        (pegAnalyticalPrompt intel) 3
                        (emit st₁ (Event.vectorIntel q intel))
                      rw [hc2] at hst2
                      dsimp only at hst2
                      simp only [emit_vector_summaries] at hst2
                      cases r2 with
                      | error e => left; simp [hst2.2.1, hst.2.1]
                      | ok oc2 =>
                          cases oc2 with
                          | none => left; simp [hst2.2.1, hst.2.1]
                          | some a =>
                              right
                              refine ⟨intel, ?_, ?_⟩
                              · simp [researchHeader, hst2.2.1, hst.2.1]
                              · exact chat_with_retry_ok_evidence o sp 3 st
                                  intel st₁ hc

theorem pegMineQuery_cf (o : Oracle) (nq idx : Nat) (q : String) (st : St) :
    countFinished ((pegMineQuery o nq idx q st).events)
      = countFinished st.events := by
  unfold pegMineQuery
  cases hs : o.search idx with
  | error e =>
      dsimp only
      simp only [emit_events, countFinished_append]
      rw [pegSummarizeBlock_cf]
      simp
  | ok rs =>
      dsimp only
      cases hu : pegUrlLoop o q rs []
          (emit (emit st (Event.query q))
            (Event.log "AI_THOUGHT" ("Mining Vector: " ++ q))) with
      | mk raw st₂ =>
          have hcf := pegUrlLoop_cf o q rs []
            (emit (emit st (Event.query q))
              (Event.log "AI_THOUGHT" ("Mining Vector: " ++ q)))
          rw [hu] at hcf
          dsimp only at hcf ⊢
          simp only [emit_events, countFinished_append]
          rw [pegSummarizeBlock_cf]
          simp only [emit_events, countFinished_append] at hcf
          simp [hcf]

theorem pegMineQuery_mp (o : Oracle) (nq idx : Nat) (q : String) (st : St) :
    masterPairs ((pegMineQuery o nq idx q st).events)
      = masterPairs st.events := by
  unfold pegMineQuery
  cases hs : o.search idx with
  | error e =>
      dsimp only
      simp only [emit_events, masterPairs_append]
      rw [pegSummarizeBlock_mp]
      simp
  | ok rs =>
      dsimp only
      cases hu : pegUrlLoop o q rs []
          (emit (emit st (Event.query q))
            (Event.log "AI_THOUGHT" ("Mining Vector: " ++ q))) with
      | mk raw st₂ =>
          have hmp := pegUrlLoop_mp o q rs []
            (emit (emit st (Event.query q))
              (Event.log "AI_THOUGHT" ("Mining Vector: " ++ q)))
          rw [hu] at hmp
          dsimp only at hmp ⊢
          simp only [emit_events, masterPairs_append]
          rw [pegSummarizeBlock_mp]
          simp only [emit_events, masterPairs_append] at hmp
          simp [hmp]

theorem pegMineLoop_cf (o : Oracle) (nq : Nat) :
    ∀ (queries : List String) (idx : Nat) (st : St),
      countFinished ((pegMineLoop o nq idx queries st).events)
        = countFinished st.events := by
  intro queries
  induction queries with
  | nil => intro idx st; rfl
  | cons q rest ih =>
      intro idx st
      unfold pegMineLoop
      rw [ih (idx + 1), pegMineQuery_cf]

theorem pegMineLoop_mp (o : Oracle) (nq : Nat) :
    ∀ (queries : List String) (idx : Nat) (st : St),
      masterPairs ((pegMineLoop o nq idx queries st).events)
        = masterPairs st.events := by
  intro queries
  induction queries with
  | nil => intro idx st; rfl
  | cons q rest ih =>
      intro idx st
      unfold pegMineLoop
      rw [ih (idx + 1), pegMineQuery_mp]

theorem pegSynthLoop_cf (o : Oracle) (target context : String) (n : Nat) :
    ∀ (secs : List (String × String)) (i : Nat) (st : St),
      countFinished ((pegSynthLoop o target context n i secs st).events)
        = countFinished st.events := by
  intro secs
  induction secs with
  | nil => intro i st; rfl
  | cons sec rest ih =>
      intro i st
      cases sec with
      | mk title instruction =>
          unfold pegSynthLoop
          cases hc : chat_with_retry o
              (pegSectionPrompt target title instruction context) 3
              (emit st (Event.log "AI"
                ("Streaming Master Section: " ++ title))) with
          | mk r st₂ =>
              have hcf := chat_with_retry_cf o
                (pegSectionPrompt target title instruction context) 3
                (emit st (Event.log "AI"
                  ("Streaming Master Section: " ++ title)))
              rw [hc] at hcf
              dsimp only at hcf
              simp only [emit_events, countFinished_append] at hcf
              cases r with
              | error e => rw [ih (i + 1), hc]; simp [hcf]
              | ok oc =>
                  cases oc with
                  | none => rw [ih (i + 1), hc]; simp [hcf]
                  | some content => rw [ih (i + 1), hc]; simp [hcf]

theorem pegChartPhase_cf (o : Oracle) (context : String) (st : St) :
    countFinished ((pegChartPhase o context st).events)
      = countFinished st.events := by
  unfold pegChartPhase
  dsimp only
  cases hc : chat_with_retry o (pegChartPrompt context) 3
      (emit st (Event.log "AI" "Generating market visualization data...")) with
  | mk r st₂ =>
      have hcf := chat_with_retry_cf o (pegChartPrompt context) 3
        (emit st (Event.log "AI" "Generating market visualization data..."))
      rw [hc] at hcf
      dsimp only at hcf
      simp only [emit_events, countFinished_append] at hcf
      cases r with
      | error e => simp [hcf]
      | ok oc =>
          cases oc with
          | none => simp [hcf]
          | some content =>
              cases hj : o.chartJson content <;> simp [hj, hcf]

theorem pegChartPhase_mp (o : Oracle) (context : String) (st : St) :
    masterPairs ((pegChartPhase o context st).events)
      = masterPairs st.events := by
  unfold pegChartPhase
  dsimp only
  cases hc : chat_with_retry o (pegChartPrompt context) 3
      (emit st (Event.log "AI" "Generating market visualization data...")) with
  | mk r st₂ =>
      have hmp := chat_with_retry_mp o (pegChartPrompt context) 3
        (emit st (Event.log "AI" "Generating market visualization data..."))
      rw [hc] at hmp
      dsimp only at hmp
      simp only [emit_events, masterPairs_append] at hmp
      cases r with
      | error e => simp [hmp]
      | ok oc =>
          cases oc with
          | none => simp [hmp]
          | some content =>
              cases hj : o.chartJson content <;> simp [hj, hmp]

theorem pegPhase1_cf (o : Oracle) (target : String) :
    countFinished ((pegPhase1 o target).2).events = 0 := by
  unfold pegPhase1
  rw [chat_with_retry_cf]
  simp [initSt]

theorem pegasusRunBody_ok_cf (o : Oracle) (target : String) (st : St)
    (h : pegasusRunBody o target = Except.ok st) :
    countFinished st.events = 1 := by
  unfold pegasusRunBody at h
  cases hp : pegPhase1 o target with
  | mk r st₁ =>
      rw [hp] at h
      have hcf1 := pegPhase1_cf o target
      rw [hp] at hcf1
      dsimp only at hcf1
      cases r with
      | error e => simp at h
      | ok oc =>
          cases oc with
          | none => simp at h
          | some content =>
              dsimp only at h
              simp only [Except.ok.injEq] at h
              rw [← h]
              simp only [emit_events, countFinished_append]
              rw [pegChartPhase_cf, pegSynthLoop_cf]
              simp only [emit_events, countFinished_append]
              rw [pegMineLoop_cf]
              by_cases hq : (pegParseQueries o.litEval content target).2
              · simp [hq, hcf1]
              · simp [hq, hcf1]

theorem pegasusRunBody_err_cf (o : Oracle) (target : String) (e : String)
    (st : St) (h : pegasusRunBody o target = Except.error (e, st)) :
    countFinished st.events = 0 := by
  unfold pegasusRunBody at h
  cases hp : pegPhase1 o target with
  | mk r st₁ =>
      rw [hp] at h
      have hcf1 := pegPhase1_cf o target
      rw [hp] at hcf1
      dsimp only at hcf1
      cases r with
      | error e' =>
          simp only [Except.error.injEq, Prod.mk.injEq] at h
          rw [← h.2]
          exact hcf1
      | ok oc =>
          cases oc with
          | none =>
              simp only [Except.error.injEq, Prod.mk.injEq] at h
              rw [← h.2]
              exact hcf1
          | some content => simp at h

/-- C2 (as stated, counterexample): a `src/agent.py` run in which every
chat call raises ends in the terminal FAILED state with **zero**
`finished_sig` emissions — the claimed "exactly one finished event for
every run, DONE or FAILED" is false for the `src/agent.py` variant,
whose orchestrator catch (lines 238-239) only logs. -/
theorem C2_counterexample :
    (agentRun oAllFail "T").status = Status.failed ∧
    countFinished (agentRun oAllFail "T").st.events = 0 := by
  constructor <;> decide

/-- C2 (amended): every `src/pegasus.py` run — DONE or FAILED — emits
`finished_sig` exactly once (lines 275 and 280); a `src/agent.py` run
emits it exactly once when it ends DONE and not at all when it ends
FAILED. -/
theorem C2_finished_events (o : Oracle) (target : String) :
    countFinished (pegasusRun o target).st.events = 1 ∧
    countFinished (agentRun o target).st.events
      = (if (agentRun o target).status = Status.done then 1 else 0) := by
  constructor
  · unfold pegasusRun
    cases hb : pegasusRunBody o target with
    | ok st =>
        dsimp only
        exact pegasusRunBody_ok_cf o target st hb
    | error p =>
        cases p with
        | mk e st =>
            dsimp only
            simp only [emit_events, countFinished_append]
            rw [pegasusRunBody_err_cf o target e st hb]
            simp
  · unfold agentRun
    cases hb : agentRunBody o target with
    | ok st =>
        dsimp only
        rw [if_pos rfl]
        exact agentRunBody_ok_cf o target st hb
    | error p =>
        cases p with
        | mk e st =>
            dsimp only
            rw [if_neg (by simp)]
            simp only [emit_events, countFinished_append]
            rw [agentRunBody_err_cf o target e st hb]
            simp

theorem pegPhase1_mp (o : Oracle) (target : String) :
    masterPairs ((pegPhase1 o target).2).events = [] := by
  unfold pegPhase1
  rw [chat_with_retry_mp]
  simp [initSt]

theorem pegSynthLoop_mem (o : Oracle) (target context : String) (n : Nat)
    {x : Event} :
    ∀ (secs : List (String × String)) (i : Nat) (st : St), x ∈ st.events →
      x ∈ (pegSynthLoop o target context n i secs st).events := by
  intro secs
  induction secs with
  | nil => intro i st h; exact h
  | cons sec rest ih =>
      intro i st h
      cases sec with
      | mk title instruction =>
          unfold pegSynthLoop
          dsimp only
          cases hc : chat_with_retry o
              (pegSectionPrompt target title instruction context) 3
              (emit st (Event.log "AI"
                ("Streaming Master Section: " ++ title))) with
          | mk r st₂ =>
              have hmem : x ∈ st₂.events := by
                have hmm := chat_with_retry_mem o
                  (pegSectionPrompt target title instruction context) 3
                  (x := x)
                  (emit st (Event.log "AI"
                    ("Streaming Master Section: " ++ title)))
                  (by simp [h])
                rw [hc] at hmm
                exact hmm
              cases r with
              | error e => apply ih; simp [hmem]
              | ok oc =>
                  cases oc with
                  | none => apply ih; simp [hmem]
                  | some content => apply ih; simp [hmem]

theorem pegChartPhase_mem (o : Oracle) (context : String) {x : Event}
    (st : St) (h : x ∈ st.events) :
    x ∈ (pegChartPhase o context st).events := by
  unfold pegChartPhase
  dsimp only
  cases hc : chat_with_retry o (pegChartPrompt context) 3
      (emit st (Event.log "AI" "Generating market visualization data...")) with
  | mk r st₂ =>
      have hmem : x ∈ st₂.events := by
        have hmm := chat_with_retry_mem o (pegChartPrompt context) 3
          (x := x)
          (emit st (Event.log "AI" "Generating market visualization data..."))
          (by simp [h])
        rw [hc] at hmm
        exact hmm
      cases r with
      | error e => simp [hmem]
      | ok oc =>
          cases oc with
          | none => simp [hmem]
          | some content =>
              cases hj : o.chartJson content <;> simp [hj, hmem]

theorem pegSynthLoop_master (o : Oracle) (target context : String) (n : Nat) :
    ∀ (secs : List (String × String)) (i : Nat) (st : St),
      ∃ cs, masterPairs (pegSynthLoop o target context n i secs st).events
          = masterPairs st.events ++ cs ∧
        cs.map Prod.fst = secs.map Prod.fst ∧
        ∀ p ∈ cs, sectionContentOk o
          (pegSynthLoop o target context n i secs st).events p := by
  intro secs
  induction secs with
  | nil => intro i st; exact ⟨[], by simp [pegSynthLoop], rfl, by simp⟩
  | cons sec rest ih =>
      intro i st
      cases sec with
      | mk title instruction =>
          unfold pegSynthLoop
          dsimp only
          cases hc : chat_with_retry o
              (pegSectionPrompt target title instruction context) 3
              (emit st (Event.log "AI"
                ("Streaming Master Section: " ++ title))) with
          | mk r st₂ =>
              have hmp2 : masterPairs st₂.events = masterPairs st.events := by
                have hq := chat_with_retry_mp o
                  (pegSectionPrompt target title instruction context) 3
                  (emit st (Event.log "AI"
                    ("Streaming Master Section: " ++ title)))
                rw [hc] at hq
                dsimp only at hq
                simpa using hq
              cases r with
              | ok oc =>
                  cases oc with
                  | some content =>
                      obtain ⟨cs, h1, h2, h3⟩ := ih (i + 1)
                        (emit (emit st₂ (Event.masterSection title content))
                          (Event.progress (50 + (i + 1) * 40 / n)))
                      refine ⟨(title, content) :: cs, ?_, by simp [h2], ?_⟩
                      · rw [h1]
                        simp [hmp2]
                      · intro p hp
                        rcases List.mem_cons.mp hp with hhd | htl
                        · subst hhd
                          left
                          obtain ⟨m, j, pr, hev⟩ :=
                            chat_with_retry_ok_evidence o
                              (pegSectionPrompt target title instruction context) 3
                              (emit st (Event.log "AI"
                                ("Streaming Master Section: " ++ title)))
                              content st₂ hc
                          exact ⟨m, j, pr, hev⟩
                        · exact h3 p htl
                  | none =>
                      obtain ⟨cs, h1, h2, h3⟩ := ih (i + 1)
                        (emit (emit (emit st₂ (Event.log "ERROR"
                          ("Failed to generate section '" ++ title
                            ++ "': 'NoneType' object is not subscriptable")))
                          (Event.masterSection title
                            "*Section generation failed: 'NoneType' object is not subscriptable*"))
                          (Event.progress (50 + (i + 1) * 40 / n)))
                      refine ⟨(title,
                        "*Section generation failed: 'NoneType' object is not subscriptable*")
                          :: cs, ?_, by simp [h2], ?_⟩
                      · rw [h1]
                        simp [hmp2]
                      · intro p hp
                        rcases List.mem_cons.mp hp with hhd | htl
                        · subst hhd
                          right
                          refine ⟨"'NoneType' object is not subscriptable",
                            rfl, ?_⟩
                          have he : (("': " : String)
                              ++ "'NoneType' object is not subscriptable")
                              = "': 'NoneType' object is not subscriptable" := rfl
                          apply pegSynthLoop_mem
                          simp [String.append_assoc, he]
                        · exact h3 p htl
              | error e =>
                  obtain ⟨cs, h1, h2, h3⟩ := ih (i + 1)
                    (emit (emit (emit st₂ (Event.log "ERROR"
                      ("Failed to generate section '" ++ title ++ "': " ++ e)))
                      (Event.masterSection title
                        ("*Section generation failed: " ++ e ++ "*")))
                      (Event.progress (50 + (i + 1) * 40 / n)))
                  refine ⟨(title, "*Section generation failed: " ++ e ++ "*")
                      :: cs, ?_, by simp [h2], ?_⟩
                  · rw [h1]
                    simp [hmp2]
                  · intro p hp
                    rcases List.mem_cons.mp hp with hhd | htl
                    · subst hhd
                      right
                      refine ⟨e, rfl, ?_⟩
                      apply pegSynthLoop_mem
                      simp
                    · exact h3 p htl

theorem sectionContentOk_mono (o : Oracle) {E E' : List Event}
    (p : String × String) (h : sectionContentOk o E p)
    (hsub : ∀ x : Event, x ∈ E → x ∈ E') : sectionContentOk o E' p := by
  rcases h with h | ⟨e, he, hmem⟩
  · exact Or.inl h
  · exact Or.inr ⟨e, he, hsub _ hmem⟩

theorem pegasusRunBody_ok_master (o : Oracle) (target : String) (st : St)
    (h : pegasusRunBody o target = Except.ok st) :
    (masterPairs st.events).map Prod.fst
        = pegReportSections.map Prod.fst ∧
      ∀ p ∈ masterPairs st.events, sectionContentOk o st.events p := by
  unfold pegasusRunBody at h
  cases hp : pegPhase1 o target with
  | mk r st₁ =>
      rw [hp] at h
      cases r with
      | error e => simp at h
      | ok oc =>
          cases oc with
          | none => simp at h
          | some content =>
              dsimp only at h
              simp only [Except.ok.injEq] at h
              have hmp1 := pegPhase1_mp o target
              rw [hp] at hmp1
              dsimp only at hmp1
              obtain ⟨cs, h1, h2, h3⟩ := pegSynthLoop_master o target
                ("\n\n".intercalate
                  (emit (pegMineLoop o
                    (pegParseQueries o.litEval content target).1.length 0
                    (pegParseQueries o.litEval content target).1
                    (if (pegParseQueries o.litEval content target).2 = true then
                      emit st₁ (Event.log "WARN"
                        "Failed to parse queries, using defaults")
                    else st₁))
                    (Event.log "SYSTEM"
                      "Executing Sectional Master Synthesis...")).vector_summaries)
                pegReportSections.length pegReportSections 0
                (emit (pegMineLoop o
                  (pegParseQueries o.litEval content target).1.length 0
                  (pegParseQueries o.litEval content target).1
                  (if (pegParseQueries o.litEval content target).2 = true then
                    emit st₁ (Event.log "WARN"
                      "Failed to parse queries, using defaults")
                  else st₁))
                  (Event.log "SYSTEM"
                    "Executing Sectional Master Synthesis..."))
              have hbase : masterPairs
                  (emit (pegMineLoop o
                    (pegParseQueries o.litEval content target).1.length 0
                    (pegParseQueries o.litEval content target).1
                    (if (pegParseQueries o.litEval content target).2 = true then
                      emit st₁ (Event.log "WARN"
                        "Failed to parse queries, using defaults")
                    else st₁))
                    (Event.log "SYSTEM"
                      "Executing Sectional Master Synthesis...")).events = [] := by
                simp only [emit_events, masterPairs_append]
                rw [pegMineLoop_mp]
                by_cases hq : (pegParseQueries o.litEval content target).2
                · simp [hq, hmp1]
                · simp [hq, hmp1]
              have hmaster : masterPairs st.events = cs := by
                rw [← h]
                simp only [emit_events, masterPairs_append]
                rw [pegChartPhase_mp, h1, hbase]
                simp
              constructor
              · rw [hmaster, h2]
              · intro p hp'
                rw [hmaster] at hp'
                refine sectionContentOk_mono o p (h3 p hp') ?_
                intro x hx
                rw [← h]
                simp only [emit_events]
                exact List.mem_append_left _ (List.mem_append_left _
                  (List.mem_append_left _ (pegChartPhase_mem o _ _ hx)))

theorem agentRunBody_ok_master (o : Oracle) (target : String) (st : St)
    (h : agentRunBody o target = Except.ok st) :
    (masterPairs st.events).map Prod.fst
      = agentReportSections.map Prod.fst := by
  unfold agentRunBody at h
  cases hp : agentPhase1 o target with
  | mk r st₁ =>
      rw [hp] at h
      cases r with
      | error e => simp at h
      | ok content =>
          dsimp only at h
          cases hm : agentMineLoop o
              (agentParseQueries o.litEval content target).length 0
              (agentParseQueries o.litEval content target) st₁ with
          | error p => rw [hm] at h; simp at h
          | ok st₂ =>
              rw [hm] at h
              dsimp only at h
              cases hsy : agentSynthLoop o target
                  (pySlice (String.intercalate "\n\n"
                    (emit st₂ (Event.log "SYSTEM"
                      "Executing Sectional Master Synthesis...")).vector_summaries)
                    MAX_MASTER_CONTEXT_CHARS)
                  agentReportSections.length 0 agentReportSections
                  (emit st₂ (Event.log "SYSTEM"
                    "Executing Sectional Master Synthesis...")) with
              | error p => rw [hsy] at h; simp at h
              | ok st₄ =>
                  rw [hsy] at h
                  dsimp only at h
                  simp only [Except.ok.injEq] at h
                  obtain ⟨cs, h1, h2⟩ := agentSynthLoop_ok_master o target
                    (pySlice (String.intercalate "\n\n"
                      (emit st₂ (Event.log "SYSTEM"
                        "Executing Sectional Master Synthesis...")).vector_summaries)
                      MAX_MASTER_CONTEXT_CHARS)
                    agentReportSections.length agentReportSections 0
                    (emit st₂ (Event.log "SYSTEM"
                      "Executing Sectional Master Synthesis...")) st₄ hsy
                  have hmp2 := agentMineLoop_mp o
                    (agentParseQueries o.litEval content target).length
                    (agentParseQueries o.litEval content target) 0 st₁
                  rw [hm] at hmp2
                  simp only [outSt_ok] at hmp2
                  have hmp1 := agentPhase1_mp o target
                  rw [hp] at hmp1
                  dsimp only at hmp1
                  have : masterPairs st.events = cs := by
                    rw [← h]
                    simp only [emit_events, masterPairs_append]
                    rw [h1]
                    simp only [emit_events, masterPairs_append]
                    rw [hmp2]
                    simp [hmp1]
                  rw [this, h2]

/-- C1 (as stated, counterexample): a `src/agent.py` run that reaches
the synthesis stage (the synthesis preamble log was emitted) but whose
second section chat call raises emits only **one** `master_section_sig`
event instead of one per configured section (5), with no error
placeholder for the failed section: `src/agent.py` lines 221-224 call
the client directly with no per-section handler. -/
theorem C1_counterexample :
    (agentRun oC1 "T").status = Status.failed ∧
    Event.log "SYSTEM" "Executing Sectional Master Synthesis..."
        ∈ (agentRun oC1 "T").st.events ∧
    masterPairs (agentRun oC1 "T").st.events
        = [("Executive Summary", "S1")] ∧
    agentReportSections.length = 5 := by
  exact ⟨by decide, by decide, by decide, rfl⟩

/-- C1 (amended): in `src/pegasus.py`, every run that reaches the
synthesis stage (equivalently, every run that does not fail in phase 1
— the only stage whose exceptions escape, so exactly the DONE runs)
emits exactly one `master_section_sig` per configured section, in
definition order, and each emitted content either came from a
successful chat call or is the italicized failure placeholder paired
with an error-level log.  In `src/agent.py`, a completed run emits one
section event per configured section in order, but a failing section
chat call aborts the run (see the counterexample): only the sections
before the failure are emitted and no placeholder is produced. -/
theorem C1_sections (o : Oracle) (target : String) :
    ((pegasusRun o target).status = Status.done →
      (masterPairs (pegasusRun o target).st.events).map Prod.fst
          = pegReportSections.map Prod.fst ∧
        ∀ p ∈ masterPairs (pegasusRun o target).st.events,
          sectionContentOk o (pegasusRun o target).st.events p) ∧
    ((agentRun o target).status = Status.done →
      (masterPairs (agentRun o target).st.events).map Prod.fst
        = agentReportSections.map Prod.fst) := by
  constructor
  · intro hdone
    unfold pegasusRun at hdone ⊢
    cases hb : pegasusRunBody o target with
    | error p =>
        rw [hb] at hdone
        cases p with
        | mk e st => simp at hdone
    | ok st =>
        dsimp only
        exact pegasusRunBody_ok_master o target st hb
  · intro hdone
    unfold agentRun at hdone ⊢
    cases hb : agentRunBody o target with
    | error p =>
        rw [hb] at hdone
        cases p with
        | mk e st => simp at hdone
    | ok st =>
        dsimp only
        exact agentRunBody_ok_master o target st hb

/-- Witness for `C1_sections` at concrete runs: a `src/pegasus.py` run
whose every post-phase-1 chat call fails still completes with all seven
section titles emitted (as placeholders), and a fully successful
`src/agent.py` run emits all five. -/
theorem C1_sections_witness :
    (pegasusRun oPegPartial "T").status = Status.done ∧
    (masterPairs (pegasusRun oPegPartial "T").st.events).map Prod.fst
        = pegReportSections.map Prod.fst ∧
    (agentRun oAllOk "T").status = Status.done ∧
    (masterPairs (agentRun oAllOk "T").st.events).map Prod.fst
        = agentReportSections.map Prod.fst := by
  refine ⟨by decide, ((C1_sections oPegPartial "T").1 (by decide)).1,
    by decide, (C1_sections oAllOk "T").2 (by decide)⟩

theorem agentRunAbortNameError (o : Oracle) (target content : String)
    (st₁ : St) (q : String) (qs : List String)
    (hp : agentPhase1 o target = (Except.ok content, st₁))
    (hq : agentParseQueries o.litEval content target = q :: qs)
    (hs : searchNoResults (o.search 0)) :
    (agentRun o target).status = Status.failed ∧
    masterPairs (agentRun o target).st.events = [] ∧
    countFinished (agentRun o target).st.events = 0 ∧
    Event.log "ERROR" "Agent Error: name 'url' is not defined"
      ∈ (agentRun o target).st.events := by
  have hu : st₁.url = none := by
    have := (agentPhase1_state o target).2.1
    rw [hp] at this
    exact this
  obtain ⟨st', habort⟩ :=
    agentMineQuery_abort o (q :: qs).length 0 q st₁ hu hs
  have hmine : agentMineLoop o (q :: qs).length 0 (q :: qs) st₁
      = Except.error ("name 'url' is not defined", st') := by
    unfold agentMineLoop
    rw [habort]
  have hbody : agentRunBody o target
      = Except.error ("name 'url' is not defined", st') := by
    unfold agentRunBody
    rw [hp]
    dsimp only
    rw [hq, hmine]
  have hmp : masterPairs st'.events = [] := by
    have h1 := agentMineLoop_mp o (q :: qs).length (q :: qs) 0 st₁
    rw [hmine] at h1
    simp only [outSt_error] at h1
    have h2 := agentPhase1_mp o target
    rw [hp] at h2
    dsimp only at h2
    rw [h1, h2]
  have hcf : countFinished st'.events = 0 :=
    agentRunBody_err_cf o target _ st' hbody
  unfold agentRun
  rw [hbody]
  refine ⟨rfl, ?_, ?_, ?_⟩
  · dsimp only
    simp [hmp]
  · dsimp only
    simp [hcf]
  · dsimp only
    simp

/-- C10 (as stated, counterexample): a `src/agent.py` run whose first
(and only) query's search returns one result without an href does
**not** abort with `NameError`: the result loop still executes
`url = result.get("href")`, binding `url` to `None`, so the fetch block
after the loop reads a bound `None`, the fetch fails, the `except`
handler logs the skip warning (interpolating `None`) and continues, and
the run completes DONE with all five sections and one `finished_sig`, no
`"Agent Error"` log. -/
theorem C10_counterexample :
    (agentRun oNoHref "T").status = Status.done ∧
    countFinished (agentRun oNoHref "T").st.events = 1 ∧
    (masterPairs (agentRun oNoHref "T").st.events).length = 5 ∧
    Event.log "WARN" "Skipped URL (fetch failed): None | Empty response"
      ∈ (agentRun oNoHref "T").st.events ∧
    Event.log "ERROR" "Agent Error: name 'url' is not defined"
      ∉ (agentRun oNoHref "T").st.events := by
  exact ⟨by decide, by decide, by decide, by decide, by decide⟩

/-- C10 (amended): in `src/agent.py` the fetch-and-extract block sits
after the result loop and reads the loop variable `url`.  For a run
whose first mined query gets **zero** search results (search raised or
returned an empty list) the loop body never runs, `url` is read before
it was ever bound, and the resulting `NameError` is re-raised from
inside the per-URL `except` handler (whose warning message itself
interpolates `url`), escapes to the orchestrator catch, and the run
terminates FAILED with no `master_section_sig` and no `finished_sig`
emitted — only the `"Agent Error: name 'url' is not defined"` log.  A
nonempty result list all of whose results lack an href does **not**
trigger this: each iteration binds `url = result.get("href") = None`,
so the fetch block reads a bound `None`, the fetch failure is logged as
a skip warning, and the query is skipped with nothing appended. -/
theorem C10_unbound_url_abort (o : Oracle) (target content : String)
    (st₁ : St) (q : String) (qs : List String)
    (hp : agentPhase1 o target = (Except.ok content, st₁))
    (hq : agentParseQueries o.litEval content target = q :: qs) :
    (searchNoResults (o.search 0) →
      (agentRun o target).status = Status.failed ∧
      masterPairs (agentRun o target).st.events = [] ∧
      countFinished (agentRun o target).st.events = 0 ∧
      Event.log "ERROR" "Agent Error: name 'url' is not defined"
        ∈ (agentRun o target).st.events) ∧
    (∀ rs, o.search 0 = Except.ok rs → rs ≠ [] → (∀ x ∈ rs, x = none) →
      ∃ st', agentMineQuery o (q :: qs).length 0 q st₁ = Except.ok st' ∧
        st'.vector_summaries = st₁.vector_summaries ∧
        st'.mined = st₁.mined ++ [(q, none)] ∧
        Event.log "WARN" "Skipped URL (fetch failed): None | Empty response"
          ∈ st'.events) := by
  constructor
  · intro hs
    exact agentRunAbortNameError o target content st₁ q qs hp hq hs
  · intro rs hsr hne hall
    exact agentMineQuery_noHref o (q :: qs).length 0 q st₁ rs hsr hne hall

/-- Witness for `C10_unbound_url_abort`: the concrete run whose first
search returns an empty list (abort half), and the concrete run whose
first search returns one href-less result (warn-and-skip half). -/
theorem C10_unbound_url_abort_witness :
    ((agentRun oSearchEmpty "T").status = Status.failed ∧
      masterPairs (agentRun oSearchEmpty "T").st.events = [] ∧
      countFinished (agentRun oSearchEmpty "T").st.events = 0 ∧
      Event.log "ERROR" "Agent Error: name 'url' is not defined"
        ∈ (agentRun oSearchEmpty "T").st.events) ∧
    (∃ st', agentMineQuery oNoHref 1 0 "T" (agentPhase1 oNoHref "T").2
        = Except.ok st' ∧
      st'.vector_summaries
          = (agentPhase1 oNoHref "T").2.vector_summaries ∧
      st'.mined = (agentPhase1 oNoHref "T").2.mined ++ [("T", none)] ∧
      Event.log "WARN" "Skipped URL (fetch failed): None | Empty response"
        ∈ st'.events) := by
  refine ⟨(C10_unbound_url_abort oSearchEmpty "T" "x"
      (agentPhase1 oSearchEmpty "T").2 "T" [] rfl (by decide)).1
      (Or.inl rfl), ?_⟩
  exact (C10_unbound_url_abort oNoHref "T" "R"
      (agentPhase1 oNoHref "T").2 "T" [] rfl (by decide)).2
    [none] rfl (by decide) (by decide)

/-- C5 (the code at the claim's failing input): when every web search
yields zero results (raises or returns an empty list) for every query
in a `src/agent.py` run (and at least one query was generated), the run
does **not** reach synthesis with an empty aggregated context — it
aborts at the first query with the unbound-url `NameError`, emitting no
`master_section_sig` at all and no `finished_sig`, contradicting the
claimed empty-mining behaviour. -/
theorem C5_empty_mining_aborts (o : Oracle) (target content : String)
    (st₁ : St) (q : String) (qs : List String)
    (hp : agentPhase1 o target = (Except.ok content, st₁))
    (hq : agentParseQueries o.litEval content target = q :: qs)
    (hall : ∀ i, searchNoResults (o.search i)) :
    (agentRun o target).status = Status.failed ∧
    masterPairs (agentRun o target).st.events = [] ∧
    countFinished (agentRun o target).st.events = 0 ∧
    Event.log "ERROR" "Agent Error: name 'url' is not defined"
      ∈ (agentRun o target).st.events :=
  agentRunAbortNameError o target content st₁ q qs hp hq (hall 0)

/-- Witness for `C5_empty_mining_aborts`: the concrete run in which
every search raises. -/
theorem C5_empty_mining_aborts_witness :
    (agentRun oSearchDown "T").status = Status.failed ∧
    masterPairs (agentRun oSearchDown "T").st.events = [] ∧
    countFinished (agentRun oSearchDown "T").st.events = 0 ∧
    Event.log "ERROR" "Agent Error: name 'url' is not defined"
      ∈ (agentRun oSearchDown "T").st.events :=
  C5_empty_mining_aborts oSearchDown "T" "x"
    (agentPhase1 oSearchDown "T").2 "T" [] rfl (by decide)
    (fun _ => Or.inr ⟨"net down", rfl⟩)

/-- C7 (as stated, counterexample): for an LLM reply with no bracketed
list syntax, query generation returns the single-element list
`[target]` (the `if match else` arm of `src/agent.py` line 101 /
`src/pegasus.py` line 113), not the deterministic default list, and its
length is 1, not ≥ 2. -/
theorem C7_counterexample :
    agentParseQueries (fun _ => none) "no list here" "Pegasus"
        = ["Pegasus"] ∧
    (agentParseQueries (fun _ => none) "no list here" "Pegasus").length
        = 1 ∧
    agentParseQueries (fun _ => none) "no list here" "Pegasus"
        ≠ agentDefaults "Pegasus" ∧
    ¬ 2 ≤ (agentParseQueries (fun _ => none) "no list here" "Pegasus").length := by
  refine ⟨by decide, by decide, by decide, by decide⟩

/-- C7 (amended): query generation never raises; when the reply
contains no bracketed span it returns the single-element list
`[target]` (length 1); the deterministic default list (two entries in
`src/agent.py`, five in `src/pegasus.py`, which also logs a warning) is
returned only when a bracketed span is found but literal evaluation of
it raises. -/
theorem C7_parse_fallbacks (lit : String → Option (List String))
    (content target : String) :
    (bracketSpan content = none →
      agentParseQueries lit content target = [target] ∧
      pegParseQueries lit content target = ([target], false)) ∧
    (∀ span, bracketSpan content = some span → lit span = none →
      agentParseQueries lit content target = agentDefaults target ∧
      (agentDefaults target).length = 2 ∧
      pegParseQueries lit content target = (pegDefaults target, true) ∧
      (pegDefaults target).length = 5) := by
  constructor
  · intro h
    unfold agentParseQueries pegParseQueries
    rw [h]
    exact ⟨rfl, rfl⟩
  · intro span h1 h2
    unfold agentParseQueries pegParseQueries
    rw [h1]
    dsimp only
    rw [h2]
    exact ⟨rfl, rfl, rfl, rfl⟩

/-- Witness for `C7_parse_fallbacks`: a bracketless reply yields
`["T"]`; a reply whose bracketed span fails literal evaluation yields
the per-variant default lists. -/
theorem C7_parse_fallbacks_witness :
    agentParseQueries (fun _ => none) "hello" "T" = ["T"] ∧
    agentParseQueries (fun _ => none) "[1,2]" "T" = agentDefaults "T" ∧
    pegParseQueries (fun _ => none) "[1,2]" "T" = (pegDefaults "T", true) :=
  ⟨((C7_parse_fallbacks (fun _ => none) "hello" "T").1 (by decide)).1,
   ((C7_parse_fallbacks (fun _ => none) "[1,2]" "T").2 "[1,2]"
     (by decide) rfl).1,
   ((C7_parse_fallbacks (fun _ => none) "[1,2]" "T").2 "[1,2]"
     (by decide) rfl).2.2.1⟩

theorem safeChatLoop_allFail (o : Oracle) (p : String)
    (hfail : ∀ m i pr, ∃ e, o.chat m i pr = Except.error e) :
    ∀ r a tot le st,
      (safeChatLoop o p r a tot le st).2.calls
          = st.calls ++ List.replicate r st.model ∧
      ∃ e', (safeChatLoop o p r a tot le st).1 = Except.error e' := by
  intro r
  induction r with
  | zero => intro a tot le st; exact ⟨by simp [safeChatLoop], le, rfl⟩
  | succ r ih =>
      intro a tot le st
      unfold safeChatLoop
      simp only [doChat]
      obtain ⟨e, he⟩ := hfail st.model st.chatIdx p
      rw [he]
      dsimp only
      obtain ⟨h1, h2⟩ := ih (a + 1) tot e
        (emit { st with
          chatIdx := st.chatIdx + 1
          calls := st.calls ++ [st.model]
          prompts := st.prompts ++ [p] }
          (Event.log "WARN" ("LLM call failed (attempt " ++ toString (a + 1)
            ++ "/" ++ toString tot ++ "): " ++ e)))
      refine ⟨?_, h2⟩
      rw [h1]
      simp [List.replicate_succ]

theorem safe_chat_allFail (o : Oracle) (p : String) (k : Nat) (st : St)
    (hfail : ∀ m i pr, ∃ e, o.chat m i pr = Except.error e)
    (hm : st.model ≠ FALLBACK_MODEL) :
    (safe_chat o p k st).2.calls
        = st.calls ++ List.replicate (k + 1) st.model ++ [FALLBACK_MODEL] ∧
    ∃ e', (safe_chat o p k st).1 = Except.error e' := by
  unfold safe_chat
  obtain ⟨hcalls, e', herr⟩ :=
    safeChatLoop_allFail o p hfail (k + 1) 0 (k + 1) "" st
  have hstate := safeChatLoop_state o p (k + 1) 0 (k + 1) "" st
  cases hl : safeChatLoop o p (k + 1) 0 (k + 1) "" st with
  | mk r st' =>
      rw [hl] at hcalls herr hstate
      dsimp only at hcalls herr hstate
      cases r with
      | ok s => simp at herr
      | error e'' =>
          have hm' : ¬ st'.model = FALLBACK_MODEL := by
            rw [hstate.1]; exact hm
          dsimp only
          rw [if_neg hm']
          simp only [doChat]
          obtain ⟨e₃, he₃⟩ := hfail FALLBACK_MODEL
            (emit st' (Event.log "WARN"
              ("Switching to fallback model: " ++ FALLBACK_MODEL))).chatIdx p
          constructor
          · simp only [emit_calls]
            rw [hcalls]
          · exact ⟨e₃, by simp only [emit_model, emit_chatIdx] at he₃ ⊢; exact he₃⟩

theorem chatRetryLoop_allFail (o : Oracle) (p : String) (k : Nat)
    (hfail : ∀ m i pr, ∃ e, o.chat m i pr = Except.error e) :
    ∀ r a st, 1 ≤ r →
      (chatRetryLoop o p k r a st).2.calls
          = st.calls ++ List.replicate r st.model ∧
      ∃ e', (chatRetryLoop o p k r a st).1 = Except.error e' := by
  intro r
  induction r with
  | zero => intro a st h; omega
  | succ r ih =>
      intro a st _
      unfold chatRetryLoop
      simp only [doChat, emit_model, emit_chatIdx]
      obtain ⟨e, he⟩ := hfail st.model st.chatIdx p
      rw [he]
      dsimp only
      cases r with
      | zero => exact ⟨by simp, _, rfl⟩
      | succ r' =>
          obtain ⟨h1, h2⟩ := ih (a + 1) _ (by omega)
          refine ⟨?_, h2⟩
          rw [h1]
          simp [List.replicate_succ]

/-- C6 (as stated, counterexample): the `src/pegasus.py` wrapper
`chat_with_retry`, with its configured retry count 3 and an
always-failing call, invokes the underlying chat exactly 3 times — not
3 + 1 — all on the active model, and never touches the fallback model
before raising. -/
theorem C6_counterexample :
    (chat_with_retry oAllFail "p" 3 initSt).2.calls
        = [PRIMARY_MODEL, PRIMARY_MODEL, PRIMARY_MODEL] ∧
    (chat_with_retry oAllFail "p" 3 initSt).2.calls.length ≠ 3 + 1 ∧
    FALLBACK_MODEL ∉ (chat_with_retry oAllFail "p" 3 initSt).2.calls ∧
    (chat_with_retry oAllFail "p" 3 initSt).1
        = Except.error "Failed after 3 attempts: down" :=
  ⟨by decide, by decide, by decide, rfl⟩

/-- C6 (amended): with an always-failing underlying call, `safe_chat`
of `src/agent.py` with `retries = k` and an active model distinct from
the fallback makes exactly `k + 1` calls on the active model, then
exactly one call on the fallback model, and then raises; the
`src/pegasus.py` wrapper `chat_with_retry` with `max_retries = k + 1`
makes exactly `k + 1` calls, all on the single active model, with no
fallback attempt, and then raises. -/
theorem C6_retry_exhaustion (o : Oracle) (p : String) (k : Nat) (st : St)
    (hfail : ∀ m i pr, ∃ e, o.chat m i pr = Except.error e)
    (hm : st.model ≠ FALLBACK_MODEL) :
    ((safe_chat o p k st).2.calls
        = st.calls ++ List.replicate (k + 1) st.model ++ [FALLBACK_MODEL] ∧
      ∃ e, (safe_chat o p k st).1 = Except.error e) ∧
    ((chat_with_retry o p (k + 1) st).2.calls
        = st.calls ++ List.replicate (k + 1) st.model ∧
      ∃ e, (chat_with_retry o p (k + 1) st).1 = Except.error e) :=
  ⟨safe_chat_allFail o p k st hfail hm,
   chatRetryLoop_allFail o p (k + 1) hfail (k + 1) 0 st (by omega)⟩

/-- Witness for `C6_retry_exhaustion`: the always-failing oracle with
`retries = 2` from the initial state: 3 primary calls, one fallback
call, then the error propagates. -/
theorem C6_retry_exhaustion_witness :
    ((safe_chat oAllFail "p" 2 initSt).2.calls
        = initSt.calls ++ List.replicate 3 initSt.model ++ [FALLBACK_MODEL] ∧
      ∃ e, (safe_chat oAllFail "p" 2 initSt).1 = Except.error e) ∧
    ((chat_with_retry oAllFail "p" 3 initSt).2.calls
        = initSt.calls ++ List.replicate 3 initSt.model ∧
      ∃ e, (chat_with_retry oAllFail "p" 3 initSt).1 = Except.error e) :=
  C6_retry_exhaustion oAllFail "p" 2 initSt
    (fun _ _ _ => ⟨"down", by simp [oAllFail, mkOracle]⟩) (by decide)

theorem modelInv_of_eq {st st' : St} (hm : st'.model = st.model)
    (hc : st'.calls = st.calls) (h : ModelInv st) : ModelInv st' := by
  obtain ⟨h1, a, b, h2, h3⟩ := h
  exact ⟨by rw [hm]; exact h1, a, b, by rw [hc]; exact h2,
    by rw [hm]; exact h3⟩

theorem doChat_modelInv (o : Oracle) (p : String) (st : St)
    (h : ModelInv st) : ModelInv (doChat o p st).2 := by
  obtain ⟨hm, a, b, hc, hb⟩ := h
  rcases hm with hP | hF
  · refine ⟨Or.inl (by simpa using hP), a + 1, 0, ?_, fun _ => rfl⟩
    simp only [doChat_calls]
    rw [hc, hb hP, hP]
    simp [List.replicate_succ']
  · refine ⟨Or.inr (by simpa using hF), a, b + 1, ?_, ?_⟩
    · simp only [doChat_calls]
      rw [hc, hF]
      simp [List.replicate_succ']
    · intro hP'
      simp only [doChat_model] at hP'
      rw [hF] at hP'
      exact absurd hP' (by decide)

theorem safeChatLoop_modelInv (o : Oracle) (p : String) :
    ∀ r a tot le st, ModelInv st →
      ModelInv (safeChatLoop o p r a tot le st).2 := by
  intro r
  induction r with
  | zero => intro a tot le st h; exact h
  | succ r ih =>
      intro a tot le st h
      unfold safeChatLoop
      simp only [doChat]
      cases hc : o.chat st.model st.chatIdx p with
      | ok s => exact doChat_modelInv o p st h
      | error e =>
          apply ih
          exact modelInv_of_eq rfl rfl (doChat_modelInv o p st h)

theorem safe_chat_modelInv (o : Oracle) (p : String) (k : Nat) (st : St)
    (h : ModelInv st) : ModelInv (safe_chat o p k st).2 := by
  unfold safe_chat
  have hloop := safeChatLoop_modelInv o p (k + 1) 0 (k + 1) "" st h
  cases hl : safeChatLoop o p (k + 1) 0 (k + 1) "" st with
  | mk r st' =>
      rw [hl] at hloop
      dsimp only at hloop
      cases r with
      | ok s => exact hloop
      | error e =>
          dsimp only
          by_cases hm : st'.model = FALLBACK_MODEL
          · rw [if_pos hm]; exact hloop
          · rw [if_neg hm]
            apply doChat_modelInv
            obtain ⟨h1, a, b, h2, h3⟩ := hloop
            exact ⟨Or.inr rfl, a, b, by simpa using h2, fun hP => by
              simp only at hP
              exact absurd hP (by decide)⟩

theorem agentSummarizeBlock_modelInv (o : Oracle) (nq idx : Nat)
    (q : String) (raw : List String) (st : St) (h : ModelInv st) :
    ModelInv (outSt (agentSummarizeBlock o nq idx q raw st)) := by
  unfold agentSummarizeBlock
  cases raw with
  | nil => exact modelInv_of_eq rfl rfl h
  | cons t rest =>
      have hsc := safe_chat_modelInv o (agentSummarizePrompt q (t :: rest)) 2 st h
      cases hs : safe_chat o (agentSummarizePrompt q (t :: rest)) 2 st with
      | mk r st₁ =>
          rw [hs] at hsc
          dsimp only at hsc
          cases r with
          | error e => exact hsc
          | ok intel => exact modelInv_of_eq rfl rfl hsc

theorem agentMineTail_modelInv (o : Oracle) (nq idx : Nat) (q : String)
    (st₂ : St) (h : ModelInv st₂) :
    ModelInv (outSt (agentMineTail o nq idx q st₂)) := by
  unfold agentMineTail
  have hbi := agentFetchBlock_inv o st₂
  have hbs : ModelInv ((agentFetchBlock o st₂).state) :=
    modelInv_of_eq hbi.1 hbi.2.2.2.2.1 h
  cases hb : agentFetchBlock o st₂ with
  | abort e st₃ => rw [hb] at hbs; exact hbs
  | skip st₃ =>
      rw [hb] at hbs
      exact modelInv_of_eq rfl rfl hbs
  | proceed raw st₃ =>
      rw [hb] at hbs
      exact agentSummarizeBlock_modelInv o nq idx q raw st₃ hbs

theorem agentMineQuery_modelInv (o : Oracle) (nq idx : Nat) (q : String)
    (st : St) (h : ModelInv st) :
    ModelInv (outSt (agentMineQuery o nq idx q st)) := by
  unfold agentMineQuery
  cases hs : o.search idx with
  | error e =>
      dsimp only
      apply agentMineTail_modelInv
      have hl := agentHrefLoop_state q []
        (emit (emit (emit st (Event.query q))
          (Event.log "AI_THOUGHT" ("Mining Vector: " ++ q)))
          (Event.log "WARN" ("Search failed: " ++ e)))
      exact modelInv_of_eq (by simp [hl.1]) (by simp [hl.2.2.2.2.1]) h
  | ok rs =>
      dsimp only
      apply agentMineTail_modelInv
      have hl := agentHrefLoop_state q rs
        (emit (emit st (Event.query q))
          (Event.log "AI_THOUGHT" ("Mining Vector: " ++ q)))
      exact modelInv_of_eq (by simp [hl.1]) (by simp [hl.2.2.2.2.1]) h

theorem agentMineLoop_modelInv (o : Oracle) (nq : Nat) :
    ∀ (queries : List String) (idx : Nat) (st : St), ModelInv st →
      ModelInv (outSt (agentMineLoop o nq idx queries st)) := by
  intro queries
  induction queries with
  | nil => intro idx st h; exact h
  | cons q rest ih =>
      intro idx st h
      unfold agentMineLoop
      have hq' := agentMineQuery_modelInv o nq idx q st h
      cases hq : agentMineQuery o nq idx q st with
      | error p => rw [hq] at hq'; exact hq'
      | ok st'' =>
          rw [hq] at hq'
          dsimp only
          exact ih (idx + 1) st'' hq'

theorem agentSynthLoop_modelInv (o : Oracle) (target context : String)
    (n : Nat) :
    ∀ (secs : List (String × String)) (i : Nat) (st : St), ModelInv st →
      ModelInv (outSt (agentSynthLoop o target context n i secs st)) := by
  intro secs
  induction secs with
  | nil => intro i st h; exact h
  | cons sec rest ih =>
      intro i st h
      cases sec with
      | mk title instruction =>
          unfold agentSynthLoop
          simp only [doChat, emit_model, emit_chatIdx]
          have hdc := doChat_modelInv o
            (agentSectionPrompt target title instruction context)
            (emit st (Event.log "AI" ("Streaming Master Section: " ++ title)))
            (modelInv_of_eq rfl rfl h)
          cases hc : o.chat st.model st.chatIdx
              (agentSectionPrompt target title instruction context) with
          | error e => exact hdc
          | ok content =>
              apply ih (i + 1)
              exact modelInv_of_eq rfl rfl hdc

/-- C8 (confirmed): in every `src/agent.py` run, the sequence of model
identities used by the underlying chat calls is a block of
`PRIMARY_MODEL` calls followed by a block of `FALLBACK_MODEL` calls:
once the wrapper has switched to the fallback (the only model mutation,
`src/agent.py` line 73), every subsequent call — mining summarizations
and section synthesis alike — uses the fallback identity, and the
active model never reverts to the primary within the run. -/
theorem C8_fallback_sticky (o : Oracle) (target : String) :
    ∃ a b, (agentRun o target).st.calls
        = List.replicate a PRIMARY_MODEL
          ++ List.replicate b FALLBACK_MODEL := by
  have hinit : ModelInv initSt :=
    ⟨Or.inl rfl, 0, 0, rfl, fun _ => rfl⟩
  have hph : ModelInv (agentPhase1 o target).2 := by
    unfold agentPhase1
    exact safe_chat_modelInv o (agentVectorPrompt target) 2 _
      (modelInv_of_eq rfl rfl hinit)
  have hbody : ModelInv (outSt (agentRunBody o target)) := by
    unfold agentRunBody
    cases hp : agentPhase1 o target with
    | mk r st₁ =>
        rw [hp] at hph
        dsimp only at hph
        cases r with
        | error e => exact hph
        | ok content =>
            dsimp only
            have hml := agentMineLoop_modelInv o
              (agentParseQueries o.litEval content target).length
              (agentParseQueries o.litEval content target) 0 st₁ hph
            cases hm : agentMineLoop o
                (agentParseQueries o.litEval content target).length 0
                (agentParseQueries o.litEval content target) st₁ with
            | error p => rw [hm] at hml; exact hml
            | ok st₂ =>
                rw [hm] at hml
                dsimp only at hml ⊢
                have hsl := agentSynthLoop_modelInv o target
                  (pySlice (String.intercalate "\n\n"
                    (emit st₂ (Event.log "SYSTEM"
                      "Executing Sectional Master Synthesis...")).vector_summaries)
                    MAX_MASTER_CONTEXT_CHARS)
                  agentReportSections.length agentReportSections 0
                  (emit st₂ (Event.log "SYSTEM"
                    "Executing Sectional Master Synthesis..."))
                  (modelInv_of_eq rfl rfl hml)
                cases hsy : agentSynthLoop o target
                    (pySlice (String.intercalate "\n\n"
                      (emit st₂ (Event.log "SYSTEM"
                        "Executing Sectional Master Synthesis...")).vector_summaries)
                      MAX_MASTER_CONTEXT_CHARS)
                    agentReportSections.length 0 agentReportSections
                    (emit st₂ (Event.log "SYSTEM"
                      "Executing Sectional Master Synthesis...")) with
                | error p => rw [hsy] at hsl; exact hsl
                | ok st₄ =>
                    rw [hsy] at hsl
                    dsimp only at hsl ⊢
                    exact modelInv_of_eq rfl rfl hsl
  unfold agentRun
  cases hb : agentRunBody o target with
  | ok st =>
      rw [hb] at hbody
      dsimp only at hbody ⊢
      obtain ⟨_, a, b, hc, _⟩ := hbody
      exact ⟨a, b, hc⟩
  | error p =>
      cases p with
      | mk e st =>
          rw [hb] at hbody
          dsimp only at hbody ⊢
          obtain ⟨_, a, b, hc, _⟩ := hbody
          exact ⟨a, b, by simpa using hc⟩

theorem imgFold_fetches (q : String) :
    ∀ (imgs : List String) (st : St),
      (imgs.foldl (fun s im => emit s (Event.image q im)) st).fetches
        = st.fetches := by
  intro imgs
  induction imgs with
  | nil => intro st; rfl
  | cons im rest ih => intro st; rw [List.foldl_cons, ih]; rfl

theorem imgFold_vs (q : String) :
    ∀ (imgs : List String) (st : St),
      (imgs.foldl (fun s im => emit s (Event.image q im)) st).vector_summaries
        = st.vector_summaries := by
  intro imgs
  induction imgs with
  | nil => intro st; rfl
  | cons im rest ih => intro st; rw [List.foldl_cons, ih]; rfl

theorem pegUrlLoop_fetches (o : Oracle) (q : String) :
    ∀ (rs : List (Option String)) (raw : List String) (st : St),
      (pegUrlLoop o q rs raw st).2.fetches
        = st.fetches ++ (hrefPrefix rs).map some := by
  intro rs
  induction rs with
  | nil => intro raw st; simp [pegUrlLoop, hrefPrefix]
  | cons r rest ih =>
      intro raw st
      cases r with
      | none => simp [pegUrlLoop, hrefPrefix]
      | some link =>
          unfold pegUrlLoop
          cases hi : o.images link with
          | error e =>
              rw [ih]
              simp [hrefPrefix]
          | ok imgs =>
              rw [ih, imgFold_fetches]
              simp [hrefPrefix]

theorem pegUrlLoop_vs (o : Oracle) (q : String) :
    ∀ (rs : List (Option String)) (raw : List String) (st : St),
      (pegUrlLoop o q rs raw st).2.vector_summaries = st.vector_summaries := by
  intro rs
  induction rs with
  | nil => intro raw st; rfl
  | cons r rest ih =>
      intro raw st
      cases r with
      | none => simp [pegUrlLoop]
      | some link =>
          unfold pegUrlLoop
          cases hi : o.images link with
          | error e => rw [ih]; rfl
          | ok imgs => rw [ih, imgFold_vs]; rfl

theorem pegSummarizeBlock_vs (o : Oracle) (q : String)
    (raw : List String) (st : St) :
    (pegSummarizeBlock o q raw st).vector_summaries = st.vector_summaries ∨
      ∃ intel, (pegSummarizeBlock o q raw st).vector_summaries
          = st.vector_summaries ++ [researchHeader q intel] ∧
        ∃ m i pr, o.chat m i pr = Except.ok intel := by
  unfold pegSummarizeBlock
  cases raw with
  | nil => exact pegSummarizeTry_vs o q st
  | cons t rest =>
      exact pegSummarizeTry_vs o q
        { st with sub_prompt := some (pegSubPrompt q (t :: rest)) }

theorem pegMineQuery_vs (o : Oracle) (nq idx : Nat) (q : String) (st : St) :
    (pegMineQuery o nq idx q st).vector_summaries = st.vector_summaries ∨
      ∃ intel, (pegMineQuery o nq idx q st).vector_summaries
          = st.vector_summaries ++ [researchHeader q intel] ∧
        ∃ m i pr, o.chat m i pr = Except.ok intel := by
  unfold pegMineQuery
  cases hs : o.search idx with
  | error e =>
      dsimp only
      rcases pegSummarizeBlock_vs o q []
          (emit (emit (emit st (Event.query q))
            (Event.log "AI_THOUGHT" ("Mining Vector: " ++ q)))
            (Event.log "WARN"
              ("Search failed for '" ++ q ++ "': " ++ e))) with h | ⟨intel, h, hev⟩
      · left; simpa using h
      · right; exact ⟨intel, by simpa using h, hev⟩
  | ok rs =>
      dsimp only
      cases hu : pegUrlLoop o q rs []
          (emit (emit st (Event.query q))
            (Event.log "AI_THOUGHT" ("Mining Vector: " ++ q))) with
      | mk raw st₂ =>
          have hvs := pegUrlLoop_vs o q rs []
            (emit (emit st (Event.query q))
              (Event.log "AI_THOUGHT" ("Mining Vector: " ++ q)))
          rw [hu] at hvs
          dsimp only at hvs ⊢
          simp only [emit_vector_summaries] at hvs
          rcases pegSummarizeBlock_vs o q raw st₂ with h | ⟨intel, h, hev⟩
          · left; simp [h, hvs]
          · right; exact ⟨intel, by simp [h, hvs], hev⟩

/-- C3 (as stated, counterexample): a `src/agent.py` run with two
generated queries in which the first query's summarization chat always
fails: no warning-then-continue happens — the run aborts before the
second query is even announced, nothing reaches synthesis, and no
`finished_sig` is emitted. -/
theorem C3_counterexample :
    (agentRun oC3 "T").status = Status.failed ∧
    Event.query "q1" ∈ (agentRun oC3 "T").st.events ∧
    Event.query "q2" ∉ (agentRun oC3 "T").st.events ∧
    (agentRun oC3 "T").st.vector_summaries = [] ∧
    countFinished (agentRun oC3 "T").st.events = 0 := by
  exact ⟨by decide, by decide, by decide, by decide, by decide⟩

/-- C3 (amended): in `src/agent.py`, a mining iteration that completes
appends either nothing (no source text — silently, with no warning) or
exactly one summary for its query; a mining iteration whose
summarization call fails (after retries and fallback) raises, appending
nothing, and that exception aborts the whole mining loop — the
remaining queries and the synthesis stage are never reached.  In
`src/pegasus.py` the summarization `try` catches everything, so a
mining iteration never raises and appends at most one entry, which
always carries the current query's label. -/
theorem C3_summarize_failure (o : Oracle) (nq idx : Nat) (q : String)
    (st : St) :
    (∀ st', agentMineQuery o nq idx q st = Except.ok st' →
      st'.vector_summaries = st.vector_summaries ∨
        ∃ intel, st'.vector_summaries
            = st.vector_summaries ++ [researchHeader q intel]) ∧
    (∀ e st', agentMineQuery o nq idx q st = Except.error (e, st') →
      st'.vector_summaries = st.vector_summaries) ∧
    (∀ e st' (rest : List String),
      agentMineQuery o nq idx q st = Except.error (e, st') →
      agentMineLoop o nq idx (q :: rest) st = Except.error (e, st')) ∧
    ((pegMineQuery o nq idx q st).vector_summaries = st.vector_summaries ∨
      ∃ intel, (pegMineQuery o nq idx q st).vector_summaries
          = st.vector_summaries ++ [researchHeader q intel]) := by
  refine ⟨?_, ?_, ?_, ?_⟩
  · intro st' h
    obtain ⟨oc, _, hv, hev⟩ := agentMineQuery_ok o nq idx q st st' h
    cases oc with
    | none => left; simpa using hv
    | some intel =>
        right
        exact ⟨intel, by simpa [researchHeader] using hv⟩
  · intro e st' h
    exact (agentMineQuery_err o nq idx q st st' e h).1
  · intro e st' rest h
    unfold agentMineLoop
    rw [h]
  · rcases pegMineQuery_vs o nq idx q st with h | ⟨intel, h, _⟩
    · exact Or.inl h
    · exact Or.inr ⟨intel, h⟩

/-- Witness for `C3_summarize_failure`: under the always-failing chat
oracle, the first query's mining step raises `"down"` after retry and
fallback exhaustion, appends nothing, and the two-query mining loop
stops at that error. -/
theorem C3_summarize_failure_witness :
    (outSt (agentMineQuery oAllFail 2 0 "T" initSt)).vector_summaries
        = initSt.vector_summaries ∧
    agentMineLoop oAllFail 2 0 ["T", "Q2"] initSt
        = Except.error ("down", outSt (agentMineQuery oAllFail 2 0 "T" initSt)) ∧
    ((outSt (agentMineQuery oAllOk 1 0 "T" initSt)).vector_summaries
        = initSt.vector_summaries ∨
      ∃ intel, (outSt (agentMineQuery oAllOk 1 0 "T" initSt)).vector_summaries
          = initSt.vector_summaries ++ [researchHeader "T" intel]) := by
  refine ⟨(C3_summarize_failure oAllFail 2 0 "T" initSt).2.1 "down" _ rfl,
    (C3_summarize_failure oAllFail 2 0 "T" initSt).2.2.1 "down" _ ["Q2"] rfl,
    (C3_summarize_failure oAllOk 1 0 "T" initSt).1 _ rfl⟩

/-- C4 (as stated, counterexample): a `src/agent.py` query whose search
returns two href-bearing URLs emits `url_sig` for both, but the
fetch-and-extract is attempted only on the **last** result — `"u1"` is
never fetched, because the fetch block sits after the result loop; and
when the last result lacks an href the loop leaves `url = None`, so the
single fetch is attempted on `None` (then warned and skipped) and no
URL at all is fetched, not even the href-bearing first result. -/
theorem C4_counterexample :
    Event.url "T" "u1" ∈ (agentRun oC4 "T").st.events ∧
    Event.url "T" "u2" ∈ (agentRun oC4 "T").st.events ∧
    (agentRun oC4 "T").st.fetches = [some "u2"] ∧
    some "u1" ∉ (agentRun oC4 "T").st.fetches ∧
    (agentRun oC4b "T").st.fetches = [none] ∧
    Event.log "WARN" "Skipped URL (fetch failed): None | Empty response"
      ∈ (agentRun oC4b "T").st.events := by
  exact ⟨by decide, by decide, by decide, by decide, by decide, by decide⟩

/-- C4 (amended): in `src/agent.py`, for a query whose search returns
`rs`, the result loop rebinds `url := result.get("href")` on every
result, so after a nonempty loop `url` holds the **last** result's href
value — `None` when the last result lacks an href — and the single
fetch-and-extract after the loop targets exactly that value (fetching
`None` fails and is warned and skipped like any other fetch failure).
When `rs` is empty, `url` keeps the value leaked from an earlier query
(a `NameError` when it was never bound).  In `src/pegasus.py`,
fetch-and-extract is attempted in-loop for every href-bearing result up
to the first result without an href (whose `KeyError` aborts the
remaining results via the search-level catch), and per-URL failures are
caught silently, with no warning logged. -/
theorem C4_fetch_per_url (o : Oracle) (nq idx : Nat) (q : String) (st : St)
    (rs : List (Option String)) (hs : o.search idx = Except.ok rs) :
    (outSt (agentMineQuery o nq idx q st)).fetches
        = st.fetches ++ (match lastBind rs with
            | some r => some r
            | none => st.url).toList ∧
    ∀ raw, (pegUrlLoop o q rs raw st).2.fetches
        = st.fetches ++ (hrefPrefix rs).map some :=
  ⟨agentMineQuery_fetches o nq idx q st rs hs,
   fun raw => pegUrlLoop_fetches o q rs raw st⟩

/-- Witness for `C4_fetch_per_url`: the two-URL search of `oC4` — the
agent variant fetches only `"u2"`, the pegasus loop fetches both. -/
theorem C4_fetch_per_url_witness :
    (outSt (agentMineQuery oC4 1 0 "T" initSt)).fetches
        = initSt.fetches ++ (match lastBind [some "u1", some "u2"] with
            | some r => some r
            | none => initSt.url).toList ∧
    (pegUrlLoop oC4 "T" [some "u1", some "u2"] [] initSt).2.fetches
        = initSt.fetches ++ (hrefPrefix [some "u1", some "u2"]).map some := by
  have H := C4_fetch_per_url oC4 1 0 "T" initSt [some "u1", some "u2"] rfl
  exact ⟨H.1, H.2 []⟩

/-- C9 (confirmed): when a `src/agent.py` run completes, its mining
trace covers exactly the generated queries, in generation order (one
entry per query, no reordering, no duplication), and the final
`vector_summaries` list is exactly the in-order sublist of entries
whose summarization succeeded, each formatted by prefixing its query as
the labelled header `"RESEARCH DATA FOR {query}: {summary}"`, the
summary being the text of a successful underlying chat call.  (A run in
which some attempted summarization fails never completes — see C3.) -/
theorem C9_order_preservation (o : Oracle) (target : String)
    (h : (agentRun o target).status = Status.done) :
    (agentRun o target).st.mined.map Prod.fst = agentQueries o target ∧
    (agentRun o target).st.vector_summaries
        = minedSummaries (agentRun o target).st.mined ∧
    ∀ p ∈ (agentRun o target).st.mined, ∀ intel, p.2 = some intel →
      ∃ m i pr, o.chat m i pr = Except.ok intel := by
  unfold agentRun at h ⊢
  cases hb : agentRunBody o target with
  | error p =>
      rw [hb] at h
      cases p with
      | mk e st => simp at h
  | ok st =>
      dsimp only
      unfold agentRunBody at hb
      cases hp : agentPhase1 o target with
      | mk r st₁ =>
          rw [hp] at hb
          cases r with
          | error e => simp at hb
          | ok content =>
              dsimp only at hb
              cases hm : agentMineLoop o
                  (agentParseQueries o.litEval content target).length 0
                  (agentParseQueries o.litEval content target) st₁ with
              | error p => rw [hm] at hb; simp at hb
              | ok st₂ =>
                  rw [hm] at hb
                  dsimp only at hb
                  cases hsy : agentSynthLoop o target
                      (pySlice (String.intercalate "\n\n"
                        (emit st₂ (Event.log "SYSTEM"
                          "Executing Sectional Master Synthesis...")).vector_summaries)
                        MAX_MASTER_CONTEXT_CHARS)
                      agentReportSections.length 0 agentReportSections
                      (emit st₂ (Event.log "SYSTEM"
                        "Executing Sectional Master Synthesis...")) with
                  | error p => rw [hsy] at hb; simp at hb
                  | ok st₄ =>
                      rw [hsy] at hb
                      dsimp only at hb
                      simp only [Except.ok.injEq] at hb
                      have hp1 := agentPhase1_state o target
                      rw [hp] at hp1
                      dsimp only at hp1
                      have hInv1 : MinedInv o st₁ := by
                        constructor
                        · rw [hp1.1, hp1.2.2.2.2]; rfl
                        · intro p hp'
                          rw [hp1.2.2.2.2] at hp'
                          simp at hp'
                      obtain ⟨hmap, hinv⟩ := agentMineLoop_mined o
                        (agentParseQueries o.litEval content target).length
                        (agentParseQueries o.litEval content target) 0 st₁ st₂ hm
                      have hInv2 := hinv hInv1
                      have hst4 := agentSynthLoop_state o target
                        (pySlice (String.intercalate "\n\n"
                          (emit st₂ (Event.log "SYSTEM"
                            "Executing Sectional Master Synthesis...")).vector_summaries)
                          MAX_MASTER_CONTEXT_CHARS)
                        agentReportSections.length agentReportSections 0
                        (emit st₂ (Event.log "SYSTEM"
                          "Executing Sectional Master Synthesis..."))
                      rw [hsy] at hst4
                      simp only [outSt_ok, emit_vector_summaries, emit_mined] at hst4
                      have hqueries : agentQueries o target
                          = agentParseQueries o.litEval content target := by
                        unfold agentQueries
                        rw [hp]
                      refine ⟨?_, ?_, ?_⟩
                      · rw [← hb]
                        simp only [emit_mined]
                        rw [hst4.2, hmap, hp1.2.2.2.2, hqueries]
                        simp
                      · rw [← hb]
                        simp only [emit_mined, emit_vector_summaries]
                        rw [hst4.1, hst4.2]
                        exact hInv2.1
                      · intro p hp' intel hpi
                        rw [← hb] at hp'
                        simp only [emit_mined] at hp'
                        rw [hst4.2] at hp'
                        exact hInv2.2 p hp' intel hpi

/-- Witness for `C9_order_preservation`: the fully successful run. -/
theorem C9_order_preservation_witness :
    (agentRun oAllOk "T").st.mined.map Prod.fst = agentQueries oAllOk "T" ∧
    (agentRun oAllOk "T").st.vector_summaries
        = minedSummaries (agentRun oAllOk "T").st.mined ∧
    ∀ p ∈ (agentRun oAllOk "T").st.mined, ∀ intel, p.2 = some intel →
      ∃ m i pr, oAllOk.chat m i pr = Except.ok intel :=
  C9_order_preservation oAllOk "T" (by decide)
